import Mathlib

/-!
# Streaming analysis pipeline of Compi-AI/compi

A shallow embedding of the provider adapters (`pkg/llm/openai`, `pkg/llm/claude`),
the orchestrator (`internal/core/domain/agent/stat_analyzer`) and the HTTP boundary
(`internal/api/http`), with the properties of the specification proved over it.

Conventions of the embedding

* Go strings are lists of Unicode code points (`Str`); a response body is well-formed
  UTF-8 text, so splitting on the byte `'\n'` and on the code point `'\n'` agree.
* A Go `error` is represented by its message; `nil` is `none`.
* A channel that its producer closes is the finite list of values sent on it, in order.
* Functions of the standard library that the code calls but that are not part of the
  repository (`json.Unmarshal`, the JSON string encoder, the clock) are parameters.
-/

set_option autoImplicit false

/-- Go strings, as sequences of code points. -/
abbrev Str := List Char

/-! ## Package `strings` -/

namespace strings

/-- Code points with the Unicode White_Space property, as tested by `unicode.IsSpace`. -/
def isSpace (c : Char) : Bool :=
  let n := c.toNat
  (0x09 ≤ n && n ≤ 0x0D) || n == 0x20 || n == 0x85 || n == 0xA0 || n == 0x1680 ||
  (0x2000 ≤ n && n ≤ 0x200A) || n == 0x2028 || n == 0x2029 || n == 0x202F ||
  n == 0x205F || n == 0x3000

/-- The Go function `strings.TrimSpace`: leading and trailing white space removed. -/
def TrimSpace (s : Str) : Str :=
  ((s.dropWhile isSpace).reverse.dropWhile isSpace).reverse

/-- The Go function `strings.HasPrefix`. -/
def HasPrefix (s pre : Str) : Bool :=
  pre.isPrefixOf s

/-- The Go function `strings.TrimPrefix`: `s` without the leading `pre`, or `s` itself. -/
def TrimPrefix (s pre : Str) : Str :=
  if HasPrefix s pre then s.drop pre.length else s

end strings

/-! ## Package `llm` -/

namespace llm

/-- One exchange of the conversation history. -/
structure Conversation where
  Request : Str
  Response : Str
deriving DecidableEq, Repr

/-- System and user prompt. -/
structure Prompt where
  System : Str
  User : Str
deriving DecidableEq, Repr

/-- The request handed to a streamer. -/
structure GenerateRequest where
  Prompt : Prompt
  History : List Conversation
deriving DecidableEq, Repr

/-- One fragment of a stream; `Error = none` is Go's `nil`. -/
structure GenerateStreamResponse where
  ID : Str
  Response : Str
  Error : Option Str
deriving DecidableEq, Repr

end llm

/-! ## Reading the response body -/

/-- How the body ends once its bytes are exhausted: `io.EOF`, or another read error. -/
inductive ReadEnd where
  | eof : ReadEnd
  | failed (err : Str) : ReadEnd
deriving DecidableEq, Repr

/-- The answer of the upstream to the streaming request: its status code, the bytes of
its body, and how reading the body ends. -/
structure HTTPResponse where
  StatusCode : Nat
  Body : Str
  End : ReadEnd
deriving DecidableEq, Repr

/-- The request side of an adapter, for a request body of type `Payload`: `Marshal` is
`json.Marshal(reqBody)`, `NewRequest` is `http.NewRequestWithContext` on the configured
endpoint, `Do` is `httpClient.Do`. -/
structure Transport (Payload : Type) where
  Marshal : Payload → Except Str Unit
  NewRequest : Except Str Unit
  Do : Payload → Except Str HTTPResponse

/-- The lines that successive calls of `reader.ReadString('\n')` return with a nil error:
each runs up to and includes its newline. Bytes after the last newline are returned by
the final call together with its error and are not part of the result. -/
def readLines : Str → List Str
  | [] => []
  | c :: cs =>
    if c = '\n' then [c] :: readLines cs
    else
      match readLines cs with
      | [] => []
      | l :: ls => (c :: l) :: ls

/-- What one turn of a reader loop does after a line was read: send fragments and read
on (`next`), or send fragments and return, which closes the channel (`stop`). -/
inductive Step where
  | next (sent : List llm.GenerateStreamResponse) : Step
  | stop (sent : List llm.GenerateStreamResponse) : Step
deriving DecidableEq, Repr

/-- The fragments a step sends. -/
def Step.sent : Step → List llm.GenerateStreamResponse
  | .next fs => fs
  | .stop fs => fs

/-- Whether the loop returns after the step. -/
def Step.stops : Step → Bool
  | .next _ => false
  | .stop _ => true

/-- The `for` loop of the reader goroutine over the successive lines: when `ReadString`
reports an error the loop sends it unless it is `io.EOF` and returns; otherwise the body
of the loop (`onLine`) handles the line. The result is what was sent on the channel. -/
def readLoop (onLine : Str → Step) (fin : ReadEnd) : List Str → List llm.GenerateStreamResponse
  | [] =>
    match fin with
    | .eof => []
    | .failed err => [{ ID := [], Response := [], Error := some err }]
  | line :: rest =>
    match onLine line with
    | .stop fs => fs
    | .next fs => fs ++ readLoop onLine fin rest

/-! ## Package `openai` -/

namespace openai

/-- A role-tagged message of the request. -/
structure chatMessage where
  Role : Str
  Content : Str
deriving DecidableEq, Repr

/-- The messages sequence built by `Client.Stream`: system, history, then the new user
prompt. -/
def buildMessages (request : llm.GenerateRequest) : List chatMessage :=
  let msgs : List chatMessage := [{ Role := "system".toList, Content := request.Prompt.System }]
  let msgs := request.History.foldl
    (fun msgs conv =>
      (msgs ++ [{ Role := "user".toList, Content := conv.Request }])
        ++ [{ Role := "assistant".toList, Content := conv.Response }])
    msgs
  msgs ++ [{ Role := "user".toList, Content := request.Prompt.User }]

/-- The streamed JSON chunk: its `id` and the `delta.content` of each of its choices. -/
structure Event where
  ID : Str
  Choices : List Str
deriving DecidableEq, Repr

/-- The inner loop over the choices: each non-empty content delta is sent. -/
def emitChoices (id : Str) : List Str → List llm.GenerateStreamResponse
  | [] => []
  | content :: rest =>
    if content ≠ [] then
      { ID := id, Response := content, Error := none } :: emitChoices id rest
    else emitChoices id rest

/-- The body of the reader loop of `Client.Stream` for one line; `unmarshal` is
`json.Unmarshal` into the event struct. -/
def onLine (unmarshal : Str → Except Str Event) (line : Str) : Step :=
  let line := strings.TrimSpace line
  if line = [] || !strings.HasPrefix line "data:".toList then .next []
  else
    let payload := strings.TrimPrefix line "data: ".toList
    if payload = "[DONE]".toList then .stop []
    else
      match unmarshal payload with
      | .error err =>
        .stop [{ ID := [], Response := [],
                 Error := some ("invalid stream response: ".toList ++ err) }]
      | .ok event => .next (emitChoices event.ID event.Choices)

/-- The fragments the reader goroutine of `Client.Stream` sends for a response body. -/
def readerLoop (unmarshal : Str → Except Str Event) (body : Str) (fin : ReadEnd) :
    List llm.GenerateStreamResponse :=
  readLoop (onLine unmarshal) fin (readLines body)

/-- The method `Client.Stream`: the immediate error, or the fragments sent on the channel
it returns. The payload of the request is the messages sequence; model and stream flag
come from the configuration. -/
def Client.Stream (unmarshal : Str → Except Str Event) (http : Transport (List chatMessage))
    (request : llm.GenerateRequest) : Except Str (List llm.GenerateStreamResponse) :=
  let msgs := buildMessages request
  match http.Marshal msgs with
  | .error err => .error ("failed to marshal request: ".toList ++ err)
  | .ok _ =>
    match http.NewRequest with
    | .error err => .error ("failed to create HTTP request: ".toList ++ err)
    | .ok _ =>
      match http.Do msgs with
      | .error err => .error ("stream request error: ".toList ++ err)
      | .ok resp =>
        if resp.StatusCode ≠ 200 then
          .error ("stream request failed: ".toList ++ resp.Body)
        else .ok (readerLoop unmarshal resp.Body resp.End)

end openai

/-! ## Package `claude` -/

namespace claude

/-- The prompt text built by `ClaudeClient.Stream`. -/
def buildPrompt (request : llm.GenerateRequest) : Str :=
  let sb : Str := []
  let sb := if request.Prompt.System ≠ [] then
      sb ++ "\n\nHuman: ".toList ++ request.Prompt.System
    else sb
  let sb := request.History.foldl
    (fun sb conv =>
      sb ++ "\n\nHuman: ".toList ++ conv.Request ++ "\n\nAssistant: ".toList ++ conv.Response)
    sb
  sb ++ "\n\nHuman: ".toList ++ request.Prompt.User ++ "\n\nAssistant:".toList

/-- The streamed JSON event: its `completion`. -/
structure Event where
  Completion : Str
deriving DecidableEq, Repr

/-- The body of the reader loop of `ClaudeClient.Stream` for one line; `unmarshal` is
`json.Unmarshal` into the event struct. -/
def onLine (unmarshal : Str → Except Str Event) (line : Str) : Step :=
  let line := strings.TrimSpace line
  if !strings.HasPrefix line "data:".toList then .next []
  else
    let payload := strings.TrimPrefix line "data: ".toList
    if payload = "[DONE]".toList then .stop []
    else
      match unmarshal payload with
      | .error err =>
        .stop [{ ID := [], Response := [],
                 Error := some ("Claude invalid stream: ".toList ++ err) }]
      | .ok event =>
        if event.Completion ≠ [] then
          .next [{ ID := [], Response := event.Completion, Error := none }]
        else .next []

/-- The fragments the reader goroutine of `ClaudeClient.Stream` sends for a response
body. -/
def readerLoop (unmarshal : Str → Except Str Event) (body : Str) (fin : ReadEnd) :
    List llm.GenerateStreamResponse :=
  readLoop (onLine unmarshal) fin (readLines body)

/-- The method `ClaudeClient.Stream`: the immediate error, or the fragments sent on the
channel it returns. The payload of the request is the prompt; model, sampling settings
and stream flag come from the configuration. -/
def ClaudeClient.Stream (unmarshal : Str → Except Str Event) (http : Transport Str)
    (request : llm.GenerateRequest) : Except Str (List llm.GenerateStreamResponse) :=
  let prompt := buildPrompt request
  match http.Marshal prompt with
  | .error err => .error ("Claude marshal request: ".toList ++ err)
  | .ok _ =>
    match http.NewRequest with
    | .error err => .error ("Claude new request: ".toList ++ err)
    | .ok _ =>
      match http.Do prompt with
      | .error err => .error ("Claude do request: ".toList ++ err)
      | .ok resp =>
        if resp.StatusCode ≠ 200 then
          .error ("Claude error response: ".toList ++ resp.Body)
        else .ok (readerLoop unmarshal resp.Body resp.End)

end claude

/-! ## Sample decoders, for evaluating the loops on concrete bodies -/

/-- A payload in the OpenAI schema: one choice with the content delta `Hi`. -/
def openaiPayload : Str :=
  "\x7b\"id\":\"c1\",\"choices\":[\x7b\"delta\":\x7b\"content\":\"Hi\"\x7d\x7d]\x7d".toList

/-- A payload in the Claude schema: the completion `Hi`. -/
def claudePayload : Str :=
  "\x7b\"completion\":\"Hi\"\x7d".toList

/-- A stand-in for `json.Unmarshal` into the OpenAI event. It decodes the three JSON
objects it knows the way the library does (fields that are absent keep their zero
value, unknown fields are ignored) and rejects every other payload. -/
def sampleOpenAI (payload : Str) : Except Str openai.Event :=
  if payload = openaiPayload then .ok { ID := "c1".toList, Choices := ["Hi".toList] }
  else if payload = claudePayload then .ok { ID := [], Choices := [] }
  else if payload = "\x7b\x7d".toList then .ok { ID := [], Choices := [] }
  else .error "invalid character".toList

/-- A stand-in for `json.Unmarshal` into the Claude event, like `sampleOpenAI`. -/
def sampleClaude (payload : Str) : Except Str claude.Event :=
  if payload = claudePayload then .ok { Completion := "Hi".toList }
  else if payload = openaiPayload then .ok { Completion := [] }
  else if payload = "\x7b\x7d".toList then .ok { Completion := [] }
  else .error "invalid character".toList

/-- Two data lines (without their newline), one in each schema. -/
def sampleLines : List Str :=
  ["data: ".toList ++ openaiPayload, "data: ".toList ++ claudePayload]

/-- A body made of complete lines: every element followed by a newline. Such bodies are
exactly the empty body and the bodies that end with a newline. -/
def joinLines : List Str → Str
  | [] => []
  | l :: ls => l ++ '\n' :: joinLines ls

/-- The fragments that carry an error. -/
def errorFragments (fs : List llm.GenerateStreamResponse) : List llm.GenerateStreamResponse :=
  fs.filter fun f => f.Error.isSome

/-! ## Role markers of a transcript -/

/-- The two roles of a transcript. -/
inductive Role where
  | human : Role
  | assistant : Role
deriving DecidableEq, Repr

/-- The role markers that occur in a text, in the order of their positions: `Human` where
the text reads "\n\nHuman:" and `Assistant` where it reads "\n\nAssistant:". -/
def roleMarkers : Str → List Role
  | [] => []
  | c :: cs =>
    if "\n\nHuman:".toList.isPrefixOf (c :: cs) then .human :: roleMarkers cs
    else if "\n\nAssistant:".toList.isPrefixOf (c :: cs) then .assistant :: roleMarkers cs
    else roleMarkers cs

/-- The other role. -/
def Role.other : Role → Role
  | .human => .assistant
  | .assistant => .human

/-- Strict alternation of a sequence of roles that starts with `r`. -/
def alternatesFrom : Role → List Role → Bool
  | _, [] => true
  | r, x :: xs => decide (x = r) && alternatesFrom r.other xs

/-- The markers of `n` complete turns: `Human, Assistant` repeated `n` times. -/
def turnMarkers : Nat → List Role
  | 0 => []
  | n + 1 => .human :: .assistant :: turnMarkers n

/-- The history as the Claude transcript renders it, one pair after the other. -/
def claude.historyText : List llm.Conversation → Str
  | [] => []
  | conv :: rest =>
    "\n\nHuman: ".toList ++ conv.Request ++ "\n\nAssistant: ".toList ++ conv.Response
      ++ claude.historyText rest

/-- The texts of a request carry no role marker of their own. -/
def markerFree (request : llm.GenerateRequest) : Prop :=
  roleMarkers request.Prompt.System = [] ∧ roleMarkers request.Prompt.User = [] ∧
  ∀ conv ∈ request.History, roleMarkers conv.Request = [] ∧ roleMarkers conv.Response = []

/-- The history as the OpenAI message list renders it: a `user` and an `assistant`
message for each pair, in order. -/
def openai.historyMessages : List llm.Conversation → List openai.chatMessage
  | [] => []
  | conv :: rest =>
    { Role := "user".toList, Content := conv.Request }
      :: { Role := "assistant".toList, Content := conv.Response }
      :: openai.historyMessages rest

/-- A request as the orchestrator builds it, with sample prompts: no history. -/
def sampleRequest : llm.GenerateRequest :=
  { Prompt := { System := "You are a coach.".toList, User := "Analyse the player.".toList },
    History := [] }

/-- A request with a history of two exchanges. -/
def sampleDialogue : llm.GenerateRequest :=
  { Prompt := { System := "You are a coach.".toList, User := "And now?".toList },
    History := [{ Request := "Hello".toList, Response := "Hi!".toList },
                { Request := "Rank me".toList, Response := "Gold".toList }] }

/-! ## Package `uuid` and package `user` -/

namespace uuid

/-- A UUID: sixteen bytes, read as one number below `2 ^ 128`. -/
abbrev UUID := Fin (2 ^ 128)

/-- The nil UUID, all zero. -/
def Nil : UUID := 0

end uuid

namespace user

/-- The entity record. -/
structure User where
  ID : uuid.UUID
  Username : Str
  SolanaWalletPublicKey : Str
  PasswordHash : Str
  Games : List Str
deriving DecidableEq, Repr

end user

/-! ## Package `stat_analyzer` -/

namespace stat_analyzer

/-- The request of the orchestrator. -/
structure BuildAnalysisRequest where
  UserID : uuid.UUID
deriving DecidableEq, Repr

/-- One fragment of the enriched stream. -/
structure BuildAnalysisStreamResponse where
  ID : Str
  Content : Str
  Error : Option Str
deriving DecidableEq, Repr

/-- A call that the orchestrator makes on one of its collaborators. -/
inductive Call where
  | FindOne (id : uuid.UUID) : Call
  | Stream (request : llm.GenerateRequest) : Call
deriving DecidableEq, Repr

/-- The collaborators of the agent and the library functions it uses.
`FindOne` is `userService.FindOne` with the filter `SingleFilter{ID: &req.UserID}`;
`Stream` is `llmStreamer.Stream`, which answers with an immediate error or with the
fragments it sends on its channel until it closes it; `now k` is the text of
`time.Now().Format(time.RFC3339Nano)` at the reading number `k` of the clock;
`quote` is the encoder of `encoding/json` for a string. -/
structure Deps where
  FindOne : uuid.UUID → Except Str user.User
  GetSystemPrompt : Str
  GetUserPrompt : Str
  Stream : llm.GenerateRequest → Except Str (List llm.GenerateStreamResponse)
  now : Nat → Str
  quote : Str → Str

/-- The call `json.Marshal(meta)` for `meta = map[string]string{"segment": segment}`; a
map of strings always marshals. -/
def marshalMeta (quote : Str → Str) (segment : Str) : Except Str Str :=
  .ok ("\x7b\"segment\":".toList ++ quote segment ++ "\x7d".toList)

/-- Stage 6 of `BuildAnalysis`, the relay goroutine: every message received from the
stream, in order, gets the metadata in front of its response and is sent on `out`; `k`
counts the readings of the clock so far. -/
def relay (quote : Str → Str) (now : Nat → Str) :
    Nat → List llm.GenerateStreamResponse → List BuildAnalysisStreamResponse
  | _, [] => []
  | k, msg :: rest =>
    let segment := now k
    let response :=
      match marshalMeta quote segment with
      | .ok payload => payload ++ "\n".toList ++ msg.Response
      | .error _ => msg.Response
    { ID := msg.ID, Content := response, Error := msg.Error } :: relay quote now (k + 1) rest

/-- The request that stage 5 of `BuildAnalysis` assembles from the two prompts. -/
def genReq (deps : Deps) : llm.GenerateRequest :=
  { Prompt := { System := deps.GetSystemPrompt, User := deps.GetUserPrompt }, History := [] }

/-- The method `BuildAnalysis` of the agent: the immediate error or the enriched stream,
together with the calls made on the collaborators, in order. The derived metrics of stage
2 and the combined data of stage 3 only go to the logger and are left out. -/
def BuildAnalysis (deps : Deps) (req : BuildAnalysisRequest) :
    Except Str (List BuildAnalysisStreamResponse) × List Call :=
  match deps.FindOne req.UserID with
  | .error err => (.error ("user lookup: ".toList ++ err), [.FindOne req.UserID])
  | .ok _ =>
    match deps.Stream (genReq deps) with
    | .error err =>
      (.error ("LLM stream: ".toList ++ err), [.FindOne req.UserID, .Stream (genReq deps)])
    | .ok stream =>
      (.ok (relay deps.quote deps.now 0 stream),
        [.FindOne req.UserID, .Stream (genReq deps)])

end stat_analyzer

/-! ## Package `http` -/

namespace http

/-- The payload for analysis. -/
structure AnalysisRequest where
  UserID : uuid.UUID
deriving DecidableEq, Repr

/-- The method `Validate`: the error, or `none` for Go's `nil`. -/
def AnalysisRequest.Validate (r : AnalysisRequest) : Option Str :=
  if r.UserID = uuid.Nil then some "userId is required".toList else none

/-- What is sent for each analysis segment. -/
structure AnalysisResponse where
  ID : Str
  Content : Str
  Error : Str
deriving DecidableEq, Repr

/-- The call `json.Marshal(res)` for an `AnalysisResponse`: the fields in the order of
their declaration, `error` left out when empty (`omitempty`); a struct of strings always
marshals. -/
def marshalResponse (quote : Str → Str) (res : AnalysisResponse) : Except Str Str :=
  .ok ("\x7b\"id\":".toList ++ quote res.ID ++ ",\"content\":".toList ++ quote res.Content
    ++ (if res.Error ≠ [] then ",\"error\":".toList ++ quote res.Error else [])
    ++ "\x7d".toList)

/-- The loop of the handler over the stream: what is written between two flushes, for
each fragment in order. -/
def writeEvents (quote : Str → Str) :
    List stat_analyzer.BuildAnalysisStreamResponse → List Str
  | [] => []
  | resp :: rest =>
    let res : AnalysisResponse :=
      { ID := resp.ID, Content := resp.Content,
        Error := match resp.Error with
          | some err => err
          | none => [] }
    match marshalResponse quote res with
    | .error _ => writeEvents quote rest
    | .ok payload =>
      ("event: analysis\n".toList ++ "data: ".toList ++ payload ++ "\n\n".toList)
        :: writeEvents quote rest

/-- What the handler did: the status of the response, the pieces written to it (one for
each flush, or the one body of an error response), the requests it passed to
`BuildAnalysis`, and the calls the agent made on its collaborators. -/
structure Outcome (Call : Type) where
  status : Nat
  written : List Str
  invoked : List stat_analyzer.BuildAnalysisRequest
  calls : List Call

/-- The bytes of the response body. -/
def Outcome.body {Call : Type} (o : Outcome Call) : Str :=
  o.written.flatten

/-- The handler made by `makeAnalysisHandler`. `decode` is
`json.NewDecoder(req.Body).Decode(&reqModel)` on a zero `AnalysisRequest`; `agent` is
the method `BuildAnalysis` of the agent, with the calls it makes; `flusher` tells whether
the response writer is an `http.Flusher`; `http.Error` writes its message and a
newline. -/
def makeAnalysisHandler {Call : Type}
    (agent : stat_analyzer.BuildAnalysisRequest →
      Except Str (List stat_analyzer.BuildAnalysisStreamResponse) × List Call)
    (decode : Str → Except Str AnalysisRequest) (quote : Str → Str) (flusher : Bool)
    (body : Str) : Outcome Call :=
  match decode body with
  | .error _ =>
    { status := 400, written := ["invalid request body\n".toList], invoked := [], calls := [] }
  | .ok reqModel =>
    match reqModel.Validate with
    | some err =>
      { status := 400, written := [err ++ "\n".toList], invoked := [], calls := [] }
    | none =>
      if !flusher then
        { status := 500, written := ["streaming unsupported\n".toList], invoked := [],
          calls := [] }
      else
        match agent { UserID := reqModel.UserID } with
        | (.error _, calls) =>
          { status := 500, written := ["analysis error\n".toList],
            invoked := [{ UserID := reqModel.UserID }], calls := calls }
        | (.ok stream, calls) =>
          { status := 200,
            written := writeEvents quote stream
              ++ ["event: end\n".toList ++ "data: \x7b\x7d\n\n".toList],
            invoked := [{ UserID := reqModel.UserID }], calls := calls }

end http

/-! ## Samples for the orchestrator and the boundary -/

/-- The encoder of a JSON string on text that needs no escape: the text in quotes. -/
def quotePlain (s : Str) : Str :=
  '"' :: s ++ ['"']

/-- A clock whose readings differ: a time stamp that ends with the number of the reading
as a digit. -/
def sampleNow (k : Nat) : Str :=
  "2025-01-01T00:00:00.00000000".toList ++ [Char.ofNat (48 + k % 10)] ++ "Z".toList

/-- A directory with one user, number 7. -/
def sampleFindOne (id : uuid.UUID) : Except Str user.User :=
  if id = 7 then
    .ok { ID := 7, Username := "ada".toList, SolanaWalletPublicKey := [], PasswordHash := [],
          Games := ["dota".toList] }
  else .error "user not found".toList

/-- Collaborators whose streamer sends two fragments and then an error fragment. -/
def sampleDeps : stat_analyzer.Deps :=
  { FindOne := sampleFindOne
    GetSystemPrompt := "You are a coach.".toList
    GetUserPrompt := "Analyse the player.".toList
    Stream := fun _ =>
      .ok [{ ID := "c1".toList, Response := "a".toList, Error := none },
           { ID := "c1".toList, Response := "b".toList, Error := none },
           { ID := [], Response := [], Error := some "reset".toList }]
    now := sampleNow
    quote := quotePlain }

/-- Collaborators whose streamer refuses the request. -/
def refusingDeps : stat_analyzer.Deps :=
  { sampleDeps with Stream := fun _ => .error "stream request failed: 401".toList }

/-- A stand-in for the decoder of the request body: an object without `userId` leaves
the identifier nil, the object with the identifier of user 7 sets it, and anything else
is rejected. -/
def sampleDecode (body : Str) : Except Str http.AnalysisRequest :=
  if body = "\x7b\x7d".toList then .ok { UserID := uuid.Nil }
  else if body = "\x7b \"subjectID\": \"not-a-valid-id\" \x7d".toList then
    .ok { UserID := uuid.Nil }
  else if body = "\x7b\"userId\":\"00000000-0000-0000-0000-000000000007\"\x7d".toList then
    .ok { UserID := 7 }
  else .error "invalid character".toList

/-! ## Events of the outbound protocol -/

/-- The terminal event. -/
def http.endEvent : Str :=
  "event: end\n".toList ++ "data: \x7b\x7d\n\n".toList

/-- An `analysis` event whose JSON body has the members `id` and `content` and no
`error` member. -/
def http.plainEvent (quote : Str → Str) (id content : Str) : Str :=
  "event: analysis\n".toList ++ "data: ".toList
    ++ ("\x7b\"id\":".toList ++ quote id ++ ",\"content\":".toList ++ quote content
        ++ "\x7d".toList)
    ++ "\n\n".toList

/-- An `analysis` event whose JSON body has the members `id`, `content` and `error`. -/
def http.errorEvent (quote : Str → Str) (id content err : Str) : Str :=
  "event: analysis\n".toList ++ "data: ".toList
    ++ ("\x7b\"id\":".toList ++ quote id ++ ",\"content\":".toList ++ quote content
        ++ (",\"error\":".toList ++ quote err) ++ "\x7d".toList)
    ++ "\n\n".toList

/-- The metadata envelope that the relay puts in front of a content: the JSON object with
the one member `segment`. -/
def stat_analyzer.envelope (quote : Str → Str) (segment : Str) : Str :=
  "\x7b\"segment\":".toList ++ quote segment ++ "\x7d".toList

/-- Whether the text `pat` occurs somewhere in a text. -/
def occursIn (pat : Str) : Str → Bool
  | [] => pat.isEmpty
  | c :: cs => pat.isPrefixOf (c :: cs) || occursIn pat cs

/-- The requests of the `Stream` calls among the calls of the orchestrator. -/
def stat_analyzer.streamRequests : List stat_analyzer.Call → List llm.GenerateRequest
  | [] => []
  | .FindOne _ :: rest => stat_analyzer.streamRequests rest
  | .Stream request :: rest => request :: stat_analyzer.streamRequests rest

/-- Collaborators whose streamer sends one fragment and then a fragment whose error has
an empty message, as `errors.New("")` has. -/
def emptyErrorDeps : stat_analyzer.Deps :=
  { sampleDeps with
    Stream := fun _ =>
      .ok [{ ID := "c1".toList, Response := "a".toList, Error := none },
           { ID := [], Response := [], Error := some [] }] }

/-- Collaborators whose streamer sends the fragments `a` and `b` and ends cleanly. -/
def roundTripDeps : stat_analyzer.Deps :=
  { sampleDeps with
    Stream := fun _ =>
      .ok [{ ID := [], Response := "a".toList, Error := none },
           { ID := [], Response := "b".toList, Error := none }] }

/-- The same collaborators with a clock that gives the same reading twice, as a clock
does whose resolution is coarser than the time between two fragments. -/
def coarseClockDeps : stat_analyzer.Deps :=
  { roundTripDeps with now := fun _ => "2025-01-01T00:00:00Z".toList }

/-- The body of a valid request for user 7. -/
def validBody : Str :=
  "\x7b\"userId\":\"00000000-0000-0000-0000-000000000007\"\x7d".toList

/-- An upstream that answers the streaming request with status 401 and an error body. -/
def unauthorized : Transport (List openai.chatMessage) :=
  { Marshal := fun _ => .ok ()
    NewRequest := .ok ()
    Do := fun _ => .ok { StatusCode := 401, Body := "bad key".toList, End := .eof } }

/-- Collaborators whose streamer is the OpenAI adapter in front of that upstream. -/
def handshakeFailureDeps : stat_analyzer.Deps :=
  { sampleDeps with Stream := openai.Client.Stream sampleOpenAI unauthorized }

/-- The inbound request as far as the handler reads it: its body, and its context. The
context is `none` when the request is never cancelled and `some k` when it is cancelled
once `k` fragments have been forwarded. -/
structure http.Request where
  Body : Str
  Context : Option Nat
deriving DecidableEq, Repr

/-- The handler made by `makeAnalysisHandler` on a request with its context: the
statement `ctx := req.Context()` and the call `agent.BuildAnalysis(ctx, ...)` are the
only places where the handler uses the context. -/
def http.HandlerFunc {Call : Type}
    (agent : Option Nat → stat_analyzer.BuildAnalysisRequest →
      Except Str (List stat_analyzer.BuildAnalysisStreamResponse) × List Call)
    (decode : Str → Except Str http.AnalysisRequest) (quote : Str → Str) (flusher : Bool)
    (req : http.Request) : http.Outcome Call :=
  let ctx := req.Context
  http.makeAnalysisHandler (agent ctx) decode quote flusher req.Body

/-- An agent whose stream has two fragments and does not react to the context, such as
one over a stub streamer. -/
def stubAgent (_ : Option Nat) (_ : stat_analyzer.BuildAnalysisRequest) :
    Except Str (List stat_analyzer.BuildAnalysisStreamResponse) × List Unit :=
  (.ok [{ ID := [], Content := "a".toList, Error := none },
        { ID := [], Content := "b".toList, Error := none }], [])

/-- The sample collaborators with another directory: its one user is number 9, with
other games. -/
def otherDirectoryDeps : stat_analyzer.Deps :=
  { sampleDeps with
    FindOne := fun id =>
      if id = 9 then
        .ok { ID := 9, Username := "bob".toList, SolanaWalletPublicKey := "w9".toList,
              PasswordHash := [], Games := ["cs2".toList, "lol".toList] }
      else .error "user not found".toList }

/-! ## Derived metrics -/

/-- The data of a registration. -/
structure user.NewUser where
  Username : Str
  SolanaWalletPublicKey : Str
  PasswordHash : Str
deriving DecidableEq, Repr

/-- The user that `service.Register` builds and hands to the storage: the identifier
`id` that `uuid.New()` returned, the given fields, and an empty list of games. -/
def user.Register (id : uuid.UUID) (newUser : user.NewUser) : user.User :=
  { ID := id
    Username := newUser.Username
    SolanaWalletPublicKey := newUser.SolanaWalletPublicKey
    PasswordHash := newUser.PasswordHash
    Games := [] }

/-- A division of two `float64` values as far as its divisor matters, in exact
arithmetic: `none` stands for the NaN or infinity that Go yields, without a panic, when
the divisor is zero. -/
def fdiv (a b : ℚ) : Option ℚ :=
  if b = 0 then none else some (a / b)

/-- The function `countTotalKills`. A length times five stays far below the range of
`int`. -/
def stat_analyzer.countTotalKills (games : List Str) : Nat :=
  games.length * 5

/-- The function `countTotalDeaths`. -/
def stat_analyzer.countTotalDeaths (games : List Str) : Nat :=
  games.length * 3

/-- The loop of `extractEngagementScores` from the index `i` on: one score for each
game. -/
def stat_analyzer.extractEngagementScoresFrom (i : Nat) : List Str → List ℚ
  | [] => []
  | _ :: rest => (((i % 5 + 1 : Nat) : ℚ)) :: stat_analyzer.extractEngagementScoresFrom (i + 1) rest

/-- The function `extractEngagementScores`. -/
def stat_analyzer.extractEngagementScores (games : List Str) : List ℚ :=
  stat_analyzer.extractEngagementScoresFrom 0 games

/-- The divisor `float64(len(data))` of the two divisions of `variance`. -/
def stat_analyzer.varianceDivisor (data : List ℚ) : ℚ :=
  (data.length : ℚ)

/-- The function `variance`: the sum, its division by the length, the sum of the squared
distances, and its division by the length. -/
def stat_analyzer.variance (data : List ℚ) : Option ℚ :=
  let mean := data.foldl (fun mean v => mean + v) 0
  match fdiv mean (stat_analyzer.varianceDivisor data) with
  | none => none
  | some mean =>
    let varSum := data.foldl (fun varSum v => varSum + (v - mean) * (v - mean)) 0
    fdiv varSum (stat_analyzer.varianceDivisor data)

/-- The divisor `math.Max(1, float64(countTotalDeaths(u.Games)))` of the kill/death
ratio. -/
def stat_analyzer.killDeathDivisor (u : user.User) : ℚ :=
  max 1 (stat_analyzer.countTotalDeaths u.Games : ℚ)

/-- The function `clusterRoleSynergy`. -/
def stat_analyzer.clusterRoleSynergy (_ : List Str) : Str :=
  "Alpha-Synergy".toList

/-- The metrics map of `deriveMetrics`, one field for each key; the kill/death ratio is
the number that is then formatted with two decimals. -/
structure stat_analyzer.Metrics where
  killDeathRatio : Option ℚ
  engagementConsistency : Option ℚ
  synergyCluster : Str
deriving DecidableEq

/-- The function `deriveMetrics`. -/
def stat_analyzer.deriveMetrics (u : user.User) : stat_analyzer.Metrics :=
  let kd := fdiv (stat_analyzer.countTotalKills u.Games : ℚ) (stat_analyzer.killDeathDivisor u)
  let scores := stat_analyzer.extractEngagementScores u.Games
  { killDeathRatio := kd
    engagementConsistency := stat_analyzer.variance scores
    synergyCluster := stat_analyzer.clusterRoleSynergy u.Games }

/-- A user as `Register` stores it. -/
def newlyRegistered : user.User :=
  user.Register 7 { Username := "ada".toList, SolanaWalletPublicKey := [],
                    PasswordHash := "hash".toList }

/-! ## Package `encoding/json`, as the handler uses it -/

/-- White space that JSON allows around a value. -/
def json.isSpace (c : Char) : Bool :=
  c = ' ' || c = '\t' || c = '\r' || c = '\n'

/-- The call `json.NewDecoder(req.Body).Decode(&reqModel)` on a zero `AnalysisRequest`:
the decoder reads the first JSON value of the body and decodes it into the request; it
leaves what follows that value unread. `readValue` is the scanner of the library, which
gives the first JSON value of a text and the rest of the text, or a syntax error;
`unmarshal` decodes one JSON value into the request. -/
def json.Decode (readValue : Str → Except Str (Str × Str))
    (unmarshal : Str → Except Str http.AnalysisRequest) (body : Str) :
    Except Str http.AnalysisRequest :=
  match readValue body with
  | .error err => .error err
  | .ok (value, _) => unmarshal value

/-- The function `json.Valid`: whether a text is a JSON document, that is one JSON value
with nothing but white space after it. -/
def json.Valid (readValue : Str → Except Str (Str × Str)) (body : Str) : Bool :=
  match readValue body with
  | .error _ => false
  | .ok (_, rest) => rest.all json.isSpace

/-- A stand-in for the scanner of the library inside an object or array that has been
opened: it follows strings and nested brackets up to the bracket that closes the value
and does not check the members. `depth` counts the open brackets, `acc` is the text of
the value so far. -/
def sampleScan : Nat → Bool → Bool → Str → Str → Except Str (Str × Str)
  | _, _, _, _, [] => .error "unexpected EOF".toList
  | depth, inString, escaped, acc, c :: cs =>
    if inString then
      if escaped then sampleScan depth true false (acc ++ [c]) cs
      else if c = '\\' then sampleScan depth true true (acc ++ [c]) cs
      else if c = '"' then sampleScan depth false false (acc ++ [c]) cs
      else sampleScan depth true false (acc ++ [c]) cs
    else if c = '"' then sampleScan depth true false (acc ++ [c]) cs
    else if c = '\x7b' || c = '[' then sampleScan (depth + 1) false false (acc ++ [c]) cs
    else if c = '\x7d' || c = ']' then
      if depth ≤ 1 then .ok (acc ++ [c], cs)
      else sampleScan (depth - 1) false false (acc ++ [c]) cs
    else sampleScan depth false false (acc ++ [c]) cs

/-- A stand-in for the scanner of the library: after leading white space it reads an
object or an array up to its closing bracket and gives the rest of the text untouched;
it rejects a text that starts otherwise or ends inside the value. -/
def sampleReadValue (body : Str) : Except Str (Str × Str) :=
  match body.dropWhile json.isSpace with
  | [] => .error "EOF".toList
  | c :: cs =>
    if c = '\x7b' || c = '[' then sampleScan 1 false false [c] cs
    else .error "invalid character".toList

/-- A body that is not a JSON document: the valid request for user 7, then more text. -/
def trailingGarbageBody : Str :=
  validBody ++ " trailing garbage".toList

/-! ## Reading lines -/

theorem readLines_sample :
    readLines "a\nbc\n\nd".toList = ["a\n".toList, "bc\n".toList, "\n".toList] := by decide

theorem TrimSpace_sample :
    strings.TrimSpace "  data: [DONE] \r\n".toList = "data: [DONE]".toList := by decide

theorem readLines_append_cons_ne_nil (a b : Str) : readLines (a ++ '\n' :: b) ≠ [] := by
  induction a with
  | nil => simp [readLines]
  | cons c a ih =>
    by_cases hc : c = '\n'
    · simp [readLines, hc]
    · simp only [List.cons_append, readLines, hc, if_false]
      cases h : readLines (a ++ '\n' :: b) with
      | nil => exact absurd h ih
      | cons l ls => simp

theorem readLines_append_cons (a b : Str) :
    readLines (a ++ '\n' :: b) = readLines (a ++ ['\n']) ++ readLines b := by
  induction a with
  | nil => simp [readLines]
  | cons c a ih =>
    by_cases hc : c = '\n'
    · simp [readLines, hc, ih]
    · cases h : readLines (a ++ ['\n']) with
      | nil => exact absurd h (readLines_append_cons_ne_nil a [])
      | cons l ls =>
        rw [List.cons_append, List.cons_append, readLines, readLines, if_neg hc, if_neg hc,
          ih, h]
        rfl

theorem readLines_no_newline (t : Str) (h : '\n' ∉ t) : readLines t = [] := by
  induction t with
  | nil => rfl
  | cons c t ih =>
    have hc : c ≠ '\n' := fun e => h (by simp [e])
    have ht : '\n' ∉ t := fun e => h (by simp [e])
    simp [readLines, hc, ih ht]

theorem readLines_line (s : Str) (h : '\n' ∉ s) : readLines (s ++ ['\n']) = [s ++ ['\n']] := by
  induction s with
  | nil => simp [readLines]
  | cons c s ih =>
    have hc : c ≠ '\n' := fun e => h (by simp [e])
    have hs : '\n' ∉ s := fun e => h (by simp [e])
    simp [readLines, hc, ih hs]

theorem readLines_joinLines_append (pre : List Str) (b : Str) :
    readLines (joinLines pre ++ b) = readLines (joinLines pre) ++ readLines b := by
  induction pre with
  | nil => simp [joinLines, readLines]
  | cons l ls ih =>
    simp only [joinLines, List.append_assoc, List.cons_append]
    rw [readLines_append_cons, ih, readLines_append_cons l (joinLines ls), List.append_assoc]

/-- A body of complete lines, then one more line, then anything: the lines read. -/
theorem readLines_body (pre : List Str) (s rest : Str) (h : '\n' ∉ s) :
    readLines (joinLines pre ++ (s ++ '\n' :: rest))
      = readLines (joinLines pre) ++ (s ++ ['\n']) :: readLines rest := by
  rw [readLines_joinLines_append, readLines_append_cons, readLines_line s h]
  simp

/-! ## The reader loop -/

theorem readLoop_append_next (onLine : Str → Step) (fin : ReadEnd) (ls rest : List Str)
    (h : ∀ l ∈ ls, (onLine l).stops = false) :
    readLoop onLine fin (ls ++ rest)
      = readLoop onLine .eof ls ++ readLoop onLine fin rest := by
  induction ls with
  | nil => simp [readLoop]
  | cons l ls ih =>
    have hl := h l (by simp)
    have ih := ih (fun x hx => h x (by simp [hx]))
    cases hs : onLine l with
    | next fs => simp [readLoop, hs, ih]
    | stop fs => simp [hs, Step.stops] at hl

theorem readLoop_stop_nil (onLine : Str → Step) (fin : ReadEnd)
    (ls : List Str) (l : Str) (rest : List Str) (h : onLine l = .stop []) :
    readLoop onLine fin (ls ++ l :: rest) = readLoop onLine .eof ls := by
  induction ls with
  | nil => simp [readLoop, h]
  | cons x ls ih =>
    cases hs : onLine x with
    | next fs => simp [readLoop, hs, ih]
    | stop fs => simp [readLoop, hs]

/-- The shape of what a loop sends when each turn sends error-free fragments and reads
on, or sends at most one fragment and returns: error-free fragments, then at most one
more fragment. -/
theorem readLoop_shape (onLine : Str → Step) (fin : ReadEnd)
    (hnext : ∀ l fs, onLine l = .next fs → ∀ f ∈ fs, f.Error = none)
    (hstop : ∀ l fs, onLine l = .stop fs → fs.length ≤ 1) (ls : List Str) :
    ∃ A B, readLoop onLine fin ls = A ++ B ∧ (∀ f ∈ A, f.Error = none) ∧ B.length ≤ 1 := by
  induction ls with
  | nil =>
    cases fin with
    | eof => exact ⟨[], [], by simp [readLoop]⟩
    | failed err =>
      exact ⟨[], [{ ID := [], Response := [], Error := some err }], by simp [readLoop],
        by simp, by simp⟩
  | cons l ls ih =>
    cases hs : onLine l with
    | stop fs => exact ⟨[], fs, by simp [readLoop, hs], by simp, hstop l fs hs⟩
    | next fs =>
      obtain ⟨A, B, hAB, hA, hB⟩ := ih
      refine ⟨fs ++ A, B, by simp [readLoop, hs, hAB], ?_, hB⟩
      intro f hf
      rcases List.mem_append.mp hf with h | h
      · exact hnext l fs hs f h
      · exact hA f h

theorem shape_error_count (A B : List llm.GenerateStreamResponse)
    (hA : ∀ f ∈ A, f.Error = none) (hB : B.length ≤ 1) :
    (errorFragments (A ++ B)).length ≤ 1 := by
  have h0 : A.filter (fun f => f.Error.isSome) = [] := by
    rw [List.filter_eq_nil_iff]
    intro f hf
    simp [hA f hf]
  unfold errorFragments
  rw [List.filter_append, h0, List.nil_append]
  exact le_trans (List.length_filter_le _ _) hB

theorem shape_error_last (A B : List llm.GenerateStreamResponse)
    (hA : ∀ f ∈ A, f.Error = none) (hB : B.length ≤ 1)
    (p : List llm.GenerateStreamResponse) (f : llm.GenerateStreamResponse)
    (q : List llm.GenerateStreamResponse) (h : A ++ B = p ++ f :: q) (hf : f.Error ≠ none) :
    q = [] := by
  rcases List.append_eq_append_iff.mp h with ⟨a, h1, h2⟩ | ⟨c, h1, h2⟩
  · subst h2
    cases a with
    | nil => simpa using hB
    | cons x a => simp at hB
  · cases c with
    | nil =>
      simp only [List.nil_append] at h2
      subst h2
      simpa using hB
    | cons x c =>
      simp only [List.cons_append, List.cons.injEq] at h2
      exact absurd (hA f (by rw [h1, h2.1]; simp)) hf

/-! ## The two adapters, line by line -/

theorem openai_onLine_sentinel (unmarshal : Str → Except Str openai.Event) (line : Str)
    (h : strings.TrimSpace line = "data: [DONE]".toList) :
    openai.onLine unmarshal line = .stop [] := by
  have h1 : strings.HasPrefix "data: [DONE]".toList "data:".toList = true := by decide
  have h2 : strings.TrimPrefix "data: [DONE]".toList "data: ".toList = "[DONE]".toList := by
    decide
  have h3 : "data: [DONE]".toList ≠ [] := by decide
  unfold openai.onLine
  simp only [h, h1, h2, h3]
  simp

theorem claude_onLine_sentinel (unmarshal : Str → Except Str claude.Event) (line : Str)
    (h : strings.TrimSpace line = "data: [DONE]".toList) :
    claude.onLine unmarshal line = .stop [] := by
  have h1 : strings.HasPrefix "data: [DONE]".toList "data:".toList = true := by decide
  have h2 : strings.TrimPrefix "data: [DONE]".toList "data: ".toList = "[DONE]".toList := by
    decide
  unfold claude.onLine
  simp only [h, h1, h2]
  simp

theorem openai_emitChoices_no_error (id : Str) (cs : List Str) :
    ∀ f ∈ openai.emitChoices id cs, f.Error = none ∧ f.Response ≠ [] ∧ f.ID = id := by
  induction cs with
  | nil => simp [openai.emitChoices]
  | cons c cs ih =>
    by_cases hc : c = []
    · simpa [openai.emitChoices, hc] using ih
    · intro f hf
      simp only [openai.emitChoices, ne_eq, hc, not_false_eq_true, if_true,
        List.mem_cons] at hf
      rcases hf with rfl | hf
      · exact ⟨rfl, hc, rfl⟩
      · exact ih f hf

theorem openai_onLine_next (unmarshal : Str → Except Str openai.Event) (l : Str)
    (fs : List llm.GenerateStreamResponse) (h : openai.onLine unmarshal l = .next fs) :
    ∀ f ∈ fs, f.Error = none ∧ f.Response ≠ [] := by
  unfold openai.onLine at h
  simp only at h
  split at h
  · cases h; simp
  · split at h
    · cases h
    · split at h
      · cases h
      · cases h
        intro f hf
        have := openai_emitChoices_no_error _ _ f hf
        exact ⟨this.1, this.2.1⟩

theorem openai_onLine_stop (unmarshal : Str → Except Str openai.Event) (l : Str)
    (fs : List llm.GenerateStreamResponse) (h : openai.onLine unmarshal l = .stop fs) :
    fs.length ≤ 1 ∧ ∀ f ∈ fs, f.Error ≠ none := by
  unfold openai.onLine at h
  simp only at h
  split at h
  · cases h
  · split at h
    · cases h; simp
    · split at h
      · cases h; simp
      · cases h

theorem claude_onLine_next (unmarshal : Str → Except Str claude.Event) (l : Str)
    (fs : List llm.GenerateStreamResponse) (h : claude.onLine unmarshal l = .next fs) :
    ∀ f ∈ fs, f.Error = none ∧ f.Response ≠ [] := by
  unfold claude.onLine at h
  simp only at h
  split at h
  · cases h; simp
  · split at h
    · cases h
    · split at h
      · cases h
      · split at h
        · cases h
          intro f hf
          simp only [List.mem_singleton] at hf
          subst hf
          exact ⟨rfl, by assumption⟩
        · cases h; simp

theorem claude_onLine_stop (unmarshal : Str → Except Str claude.Event) (l : Str)
    (fs : List llm.GenerateStreamResponse) (h : claude.onLine unmarshal l = .stop fs) :
    fs.length ≤ 1 ∧ ∀ f ∈ fs, f.Error ≠ none := by
  unfold claude.onLine at h
  simp only at h
  split at h
  · cases h
  · split at h
    · cases h; simp
    · split at h
      · cases h; simp
      · split at h <;> cases h

theorem openai_emitChoices_eq (id : Str) (cs : List Str) :
    openai.emitChoices id cs
      = (cs.filter fun c => decide (c ≠ [])).map
          fun c => { ID := id, Response := c, Error := none } := by
  induction cs with
  | nil => rfl
  | cons c cs ih =>
    by_cases hc : c = []
    · simp [openai.emitChoices, hc, ih]
    · simp [openai.emitChoices, hc, ih]

/-- An accepted data line of the OpenAI adapter whose payload is not the sentinel is
handed to the decoder, and the outcome of the decoder decides the step. -/
theorem openai_onLine_data (unmarshal : Str → Except Str openai.Event) (line : Str)
    (hdata : strings.HasPrefix (strings.TrimSpace line) "data:".toList = true)
    (hpay : strings.TrimPrefix (strings.TrimSpace line) "data: ".toList ≠ "[DONE]".toList) :
    openai.onLine unmarshal line =
      match unmarshal (strings.TrimPrefix (strings.TrimSpace line) "data: ".toList) with
      | .error err =>
        .stop [{ ID := [], Response := [],
                 Error := some ("invalid stream response: ".toList ++ err) }]
      | .ok event => .next (openai.emitChoices event.ID event.Choices) := by
  have hne : strings.TrimSpace line ≠ [] := by
    intro h
    rw [h] at hdata
    exact absurd hdata (by decide)
  unfold openai.onLine
  simp only [hdata, hpay, hne, decide_False, Bool.not_true, Bool.or_false,
    Bool.false_eq_true, if_false]

/-- An accepted data line of the Claude adapter whose payload is not the sentinel is
handed to the decoder, and the outcome of the decoder decides the step. -/
theorem claude_onLine_data (unmarshal : Str → Except Str claude.Event) (line : Str)
    (hdata : strings.HasPrefix (strings.TrimSpace line) "data:".toList = true)
    (hpay : strings.TrimPrefix (strings.TrimSpace line) "data: ".toList ≠ "[DONE]".toList) :
    claude.onLine unmarshal line =
      match unmarshal (strings.TrimPrefix (strings.TrimSpace line) "data: ".toList) with
      | .error err =>
        .stop [{ ID := [], Response := [],
                 Error := some ("Claude invalid stream: ".toList ++ err) }]
      | .ok event =>
        if event.Completion ≠ [] then
          .next [{ ID := [], Response := event.Completion, Error := none }]
        else .next [] := by
  unfold claude.onLine
  simp only [hdata, hpay, Bool.not_true, Bool.false_eq_true, if_false]

theorem readLoop_error_free_nonempty (onLine : Str → Step) (fin : ReadEnd)
    (hnext : ∀ l fs, onLine l = .next fs → ∀ f ∈ fs, f.Error = none ∧ f.Response ≠ [])
    (hstop : ∀ l fs, onLine l = .stop fs → fs.length ≤ 1 ∧ ∀ f ∈ fs, f.Error ≠ none)
    (ls : List Str) :
    ∀ f ∈ readLoop onLine fin ls, f.Error = none → f.Response ≠ [] := by
  induction ls with
  | nil =>
    cases fin with
    | eof => simp [readLoop]
    | failed err =>
      intro f hf he
      simp only [readLoop, List.mem_singleton] at hf
      subst hf
      simp at he
  | cons l ls ih =>
    intro f hf he
    cases hs : onLine l with
    | stop fs =>
      simp only [readLoop, hs] at hf
      exact absurd he ((hstop l fs hs).2 f hf)
    | next fs =>
      simp only [readLoop, hs, List.mem_append] at hf
      rcases hf with h | h
      · exact (hnext l fs hs f h).2
      · exact ih f h he

theorem readLoop_line (onLine : Str → Step) (fin : ReadEnd) (ls : List Str) (l : Str)
    (rest : List Str) (h : ∀ x ∈ ls, (onLine x).stops = false) :
    readLoop onLine fin (ls ++ l :: rest) =
      readLoop onLine .eof ls ++
        match onLine l with
        | .stop fs => fs
        | .next fs => fs ++ readLoop onLine fin rest := by
  rw [readLoop_append_next onLine fin ls (l :: rest) h]
  rfl

/-! ## Properties of the provider adapters -/

/-- C1. Sentinel conformance of both adapters. When the body consists of complete lines
`pre`, then a line `s` whose trimmed text is `data: [DONE]`, then any `trailing` bytes,
the fragments sent are those sent for the body cut after the sentinel line, whatever the
trailing bytes and however either read ends; and they are the fragments of `pre` alone
with a clean end, so the sentinel adds no fragment and no error. -/
theorem sentinel_closes_stream
    (uo : Str → Except Str openai.Event) (uc : Str → Except Str claude.Event)
    (pre : List Str) (s trailing : Str) (fin fin2 : ReadEnd)
    (hline : '\n' ∉ s)
    (hs : strings.TrimSpace (s ++ ['\n']) = "data: [DONE]".toList) :
    (openai.readerLoop uo (joinLines pre ++ (s ++ '\n' :: trailing)) fin
        = openai.readerLoop uo (joinLines pre ++ (s ++ ['\n'])) fin2
      ∧ openai.readerLoop uo (joinLines pre ++ (s ++ '\n' :: trailing)) fin
        = openai.readerLoop uo (joinLines pre) .eof)
    ∧ (claude.readerLoop uc (joinLines pre ++ (s ++ '\n' :: trailing)) fin
        = claude.readerLoop uc (joinLines pre ++ (s ++ ['\n'])) fin2
      ∧ claude.readerLoop uc (joinLines pre ++ (s ++ '\n' :: trailing)) fin
        = claude.readerLoop uc (joinLines pre) .eof) := by
  have ho := openai_onLine_sentinel uo _ hs
  have hc := claude_onLine_sentinel uc _ hs
  unfold openai.readerLoop claude.readerLoop
  rw [readLines_body pre s trailing hline, readLines_body pre s [] hline]
  refine ⟨⟨?_, ?_⟩, ?_, ?_⟩
  · rw [readLoop_stop_nil _ fin _ _ _ ho, readLoop_stop_nil _ fin2 _ _ _ ho]
  · rw [readLoop_stop_nil _ fin _ _ _ ho]
  · rw [readLoop_stop_nil _ fin _ _ _ hc, readLoop_stop_nil _ fin2 _ _ _ hc]
  · rw [readLoop_stop_nil _ fin _ _ _ hc]

/-- Witness of C1: two data lines, the sentinel line with surrounding blanks, then a line
that would not decode and a failing read. -/
theorem sentinel_closes_stream_witness :
    (openai.readerLoop sampleOpenAI
        (joinLines sampleLines ++ (" data: [DONE]\r".toList ++ '\n' :: "data: x\n".toList))
        (.failed "reset".toList)
        = openai.readerLoop sampleOpenAI
            (joinLines sampleLines ++ (" data: [DONE]\r".toList ++ ['\n'])) .eof
      ∧ openai.readerLoop sampleOpenAI
        (joinLines sampleLines ++ (" data: [DONE]\r".toList ++ '\n' :: "data: x\n".toList))
        (.failed "reset".toList)
        = openai.readerLoop sampleOpenAI (joinLines sampleLines) .eof)
    ∧ (claude.readerLoop sampleClaude
        (joinLines sampleLines ++ (" data: [DONE]\r".toList ++ '\n' :: "data: x\n".toList))
        (.failed "reset".toList)
        = claude.readerLoop sampleClaude
            (joinLines sampleLines ++ (" data: [DONE]\r".toList ++ ['\n'])) .eof
      ∧ claude.readerLoop sampleClaude
        (joinLines sampleLines ++ (" data: [DONE]\r".toList ++ '\n' :: "data: x\n".toList))
        (.failed "reset".toList)
        = claude.readerLoop sampleClaude (joinLines sampleLines) .eof) :=
  sentinel_closes_stream sampleOpenAI sampleClaude sampleLines " data: [DONE]\r".toList
    "data: x\n".toList (.failed "reset".toList) .eof (by decide) (by decide)

/-- The sample body of the witness of C1, evaluated: one fragment from each adapter. -/
theorem sentinel_sample_eval :
    openai.readerLoop sampleOpenAI
        (joinLines sampleLines ++ (" data: [DONE]\r".toList ++ '\n' :: "data: x\n".toList))
        (.failed "reset".toList)
      = [{ ID := "c1".toList, Response := "Hi".toList, Error := none }]
    ∧ claude.readerLoop sampleClaude
        (joinLines sampleLines ++ (" data: [DONE]\r".toList ++ '\n' :: "data: x\n".toList))
        (.failed "reset".toList)
      = [{ ID := [], Response := "Hi".toList, Error := none }] := by
  decide

/-- C2. For both adapters, every body and either end of the read: at most one fragment
carries an error, and a fragment that carries an error is the last one sent. -/
theorem error_fragment_is_last
    (uo : Str → Except Str openai.Event) (uc : Str → Except Str claude.Event)
    (body : Str) (fin : ReadEnd) :
    ((errorFragments (openai.readerLoop uo body fin)).length ≤ 1
      ∧ ∀ p f q, openai.readerLoop uo body fin = p ++ f :: q → f.Error ≠ none → q = [])
    ∧ ((errorFragments (claude.readerLoop uc body fin)).length ≤ 1
      ∧ ∀ p f q, claude.readerLoop uc body fin = p ++ f :: q → f.Error ≠ none → q = []) := by
  obtain ⟨A, B, hAB, hA, hB⟩ := readLoop_shape (openai.onLine uo) fin
    (fun l fs h f hf => (openai_onLine_next uo l fs h f hf).1)
    (fun l fs h => (openai_onLine_stop uo l fs h).1) (readLines body)
  obtain ⟨C, D, hCD, hC, hD⟩ := readLoop_shape (claude.onLine uc) fin
    (fun l fs h f hf => (claude_onLine_next uc l fs h f hf).1)
    (fun l fs h => (claude_onLine_stop uc l fs h).1) (readLines body)
  unfold openai.readerLoop claude.readerLoop
  rw [hAB, hCD]
  exact ⟨⟨shape_error_count A B hA hB, fun p f q h hf => shape_error_last A B hA hB p f q h hf⟩,
    shape_error_count C D hC hD, fun p f q h hf => shape_error_last C D hC hD p f q h hf⟩

/-- Witness of C2: a body whose second line does not decode and which has lines after
it; the error fragment is there and nothing follows it. -/
theorem error_fragment_is_last_witness :
    openai.readerLoop sampleOpenAI
        (joinLines ["data: ".toList ++ openaiPayload, "data: x".toList,
          "data: ".toList ++ openaiPayload]) (.failed "reset".toList)
      = [{ ID := "c1".toList, Response := "Hi".toList, Error := none }]
          ++ { ID := [], Response := [],
               Error := some "invalid stream response: invalid character".toList } :: []
    ∧ ([] : List llm.GenerateStreamResponse) = [] :=
  have h : openai.readerLoop sampleOpenAI
        (joinLines ["data: ".toList ++ openaiPayload, "data: x".toList,
          "data: ".toList ++ openaiPayload]) (.failed "reset".toList)
      = [{ ID := "c1".toList, Response := "Hi".toList, Error := none }]
          ++ { ID := [], Response := [],
               Error := some "invalid stream response: invalid character".toList } :: [] := by
    decide
  ⟨h, (error_fragment_is_last sampleOpenAI sampleClaude _ _).1.2 _ _ _ h (by decide)⟩

/-- C3. Failure in the middle of a stream, for both adapters. Let the complete lines `pre`
be read without ending the stream, so that they produce the fragments `F` (what the
adapter sends for `pre` followed by a clean end). If the next line is a data line whose
payload is not the sentinel and does not decode, or if the next read fails with an error
that is not end-of-input (whatever partial line `tail` came with it), then the whole
output is `F` followed by one fragment with the error set and empty id and content;
the lines after the failing one (`rest`) are not processed. -/
theorem midstream_failure :
    (∀ (uo : Str → Except Str openai.Event) (pre : List Str) (bad rest : Str)
        (fin : ReadEnd) (err : Str),
        (∀ l ∈ readLines (joinLines pre), (openai.onLine uo l).stops = false) →
        '\n' ∉ bad →
        strings.HasPrefix (strings.TrimSpace (bad ++ ['\n'])) "data:".toList = true →
        strings.TrimPrefix (strings.TrimSpace (bad ++ ['\n'])) "data: ".toList
          ≠ "[DONE]".toList →
        uo (strings.TrimPrefix (strings.TrimSpace (bad ++ ['\n'])) "data: ".toList)
          = .error err →
        openai.readerLoop uo (joinLines pre ++ (bad ++ '\n' :: rest)) fin
          = openai.readerLoop uo (joinLines pre) .eof
              ++ [{ ID := [], Response := [],
                    Error := some ("invalid stream response: ".toList ++ err) }])
    ∧ (∀ (uo : Str → Except Str openai.Event) (pre : List Str) (tail err : Str),
        (∀ l ∈ readLines (joinLines pre), (openai.onLine uo l).stops = false) →
        '\n' ∉ tail →
        openai.readerLoop uo (joinLines pre ++ tail) (.failed err)
          = openai.readerLoop uo (joinLines pre) .eof
              ++ [{ ID := [], Response := [], Error := some err }])
    ∧ (∀ (uc : Str → Except Str claude.Event) (pre : List Str) (bad rest : Str)
        (fin : ReadEnd) (err : Str),
        (∀ l ∈ readLines (joinLines pre), (claude.onLine uc l).stops = false) →
        '\n' ∉ bad →
        strings.HasPrefix (strings.TrimSpace (bad ++ ['\n'])) "data:".toList = true →
        strings.TrimPrefix (strings.TrimSpace (bad ++ ['\n'])) "data: ".toList
          ≠ "[DONE]".toList →
        uc (strings.TrimPrefix (strings.TrimSpace (bad ++ ['\n'])) "data: ".toList)
          = .error err →
        claude.readerLoop uc (joinLines pre ++ (bad ++ '\n' :: rest)) fin
          = claude.readerLoop uc (joinLines pre) .eof
              ++ [{ ID := [], Response := [],
                    Error := some ("Claude invalid stream: ".toList ++ err) }])
    ∧ (∀ (uc : Str → Except Str claude.Event) (pre : List Str) (tail err : Str),
        (∀ l ∈ readLines (joinLines pre), (claude.onLine uc l).stops = false) →
        '\n' ∉ tail →
        claude.readerLoop uc (joinLines pre ++ tail) (.failed err)
          = claude.readerLoop uc (joinLines pre) .eof
              ++ [{ ID := [], Response := [], Error := some err }]) := by
  refine ⟨?_, ?_, ?_, ?_⟩
  · intro uo pre bad rest fin err hpre hline hdata hpay herr
    unfold openai.readerLoop
    rw [readLines_body pre bad rest hline, readLoop_line _ fin _ _ _ hpre,
      openai_onLine_data uo _ hdata hpay, herr]
  · intro uo pre tail err hpre htail
    unfold openai.readerLoop
    rw [readLines_joinLines_append, readLines_no_newline tail htail,
      readLoop_append_next _ _ _ _ hpre]
    rfl
  · intro uc pre bad rest fin err hpre hline hdata hpay herr
    unfold claude.readerLoop
    rw [readLines_body pre bad rest hline, readLoop_line _ fin _ _ _ hpre,
      claude_onLine_data uc _ hdata hpay, herr]
  · intro uc pre tail err hpre htail
    unfold claude.readerLoop
    rw [readLines_joinLines_append, readLines_no_newline tail htail,
      readLoop_append_next _ _ _ _ hpre]
    rfl

/-- Witness of C3: after two data lines, a data line that does not decode (OpenAI) and a
read that fails in the middle of a line (Claude). -/
theorem midstream_failure_witness :
    openai.readerLoop sampleOpenAI
        (joinLines sampleLines ++ ("data: x".toList ++ '\n' :: joinLines sampleLines)) .eof
      = openai.readerLoop sampleOpenAI (joinLines sampleLines) .eof
          ++ [{ ID := [], Response := [],
                Error := some ("invalid stream response: ".toList
                  ++ "invalid character".toList) }]
    ∧ claude.readerLoop sampleClaude (joinLines sampleLines ++ "data: [DO".toList)
        (.failed "reset".toList)
      = claude.readerLoop sampleClaude (joinLines sampleLines) .eof
          ++ [{ ID := [], Response := [], Error := some "reset".toList }] :=
  ⟨midstream_failure.1 sampleOpenAI sampleLines "data: x".toList (joinLines sampleLines) .eof
      "invalid character".toList (by decide) (by decide) (by decide) (by decide) rfl,
    midstream_failure.2.2.2 sampleClaude sampleLines "data: [DO".toList "reset".toList
      (by decide) (by decide)⟩

/-- C4. What one decoded event sends. A data line whose payload is not the sentinel and
decodes to `ev` makes the OpenAI adapter send, in the order of the choices, one
error-free fragment with the id of the event for each choice with a non-empty content
delta, and makes the Claude adapter send one error-free fragment with the completion
when it is non-empty; in both cases the loop reads on, also when nothing was sent, so
the fragments of the lines before and after surround those of the event. No error-free
fragment of either adapter has empty content. -/
theorem per_event_emission :
    (∀ (uo : Str → Except Str openai.Event) (line : Str) (ev : openai.Event),
        strings.HasPrefix (strings.TrimSpace line) "data:".toList = true →
        strings.TrimPrefix (strings.TrimSpace line) "data: ".toList ≠ "[DONE]".toList →
        uo (strings.TrimPrefix (strings.TrimSpace line) "data: ".toList) = .ok ev →
        openai.onLine uo line
          = .next ((ev.Choices.filter fun c => decide (c ≠ [])).map
              fun c => { ID := ev.ID, Response := c, Error := none }))
    ∧ (∀ (uc : Str → Except Str claude.Event) (line : Str) (ev : claude.Event),
        strings.HasPrefix (strings.TrimSpace line) "data:".toList = true →
        strings.TrimPrefix (strings.TrimSpace line) "data: ".toList ≠ "[DONE]".toList →
        uc (strings.TrimPrefix (strings.TrimSpace line) "data: ".toList) = .ok ev →
        claude.onLine uc line
          = .next (if ev.Completion ≠ [] then
              [{ ID := [], Response := ev.Completion, Error := none }] else []))
    ∧ (∀ (uo : Str → Except Str openai.Event) (pre : List Str) (line rest : Str)
        (fin : ReadEnd) (ev : openai.Event),
        (∀ l ∈ readLines (joinLines pre), (openai.onLine uo l).stops = false) →
        '\n' ∉ line →
        strings.HasPrefix (strings.TrimSpace (line ++ ['\n'])) "data:".toList = true →
        strings.TrimPrefix (strings.TrimSpace (line ++ ['\n'])) "data: ".toList
          ≠ "[DONE]".toList →
        uo (strings.TrimPrefix (strings.TrimSpace (line ++ ['\n'])) "data: ".toList)
          = .ok ev →
        openai.readerLoop uo (joinLines pre ++ (line ++ '\n' :: rest)) fin
          = openai.readerLoop uo (joinLines pre) .eof
              ++ ((ev.Choices.filter fun c => decide (c ≠ [])).map
                    fun c => { ID := ev.ID, Response := c, Error := none })
              ++ openai.readerLoop uo rest fin)
    ∧ (∀ (uc : Str → Except Str claude.Event) (pre : List Str) (line rest : Str)
        (fin : ReadEnd) (ev : claude.Event),
        (∀ l ∈ readLines (joinLines pre), (claude.onLine uc l).stops = false) →
        '\n' ∉ line →
        strings.HasPrefix (strings.TrimSpace (line ++ ['\n'])) "data:".toList = true →
        strings.TrimPrefix (strings.TrimSpace (line ++ ['\n'])) "data: ".toList
          ≠ "[DONE]".toList →
        uc (strings.TrimPrefix (strings.TrimSpace (line ++ ['\n'])) "data: ".toList)
          = .ok ev →
        claude.readerLoop uc (joinLines pre ++ (line ++ '\n' :: rest)) fin
          = claude.readerLoop uc (joinLines pre) .eof
              ++ (if ev.Completion ≠ [] then
                    [{ ID := [], Response := ev.Completion, Error := none }] else [])
              ++ claude.readerLoop uc rest fin)
    ∧ (∀ (uo : Str → Except Str openai.Event) (body : Str) (fin : ReadEnd),
        ∀ f ∈ openai.readerLoop uo body fin, f.Error = none → f.Response ≠ [])
    ∧ (∀ (uc : Str → Except Str claude.Event) (body : Str) (fin : ReadEnd),
        ∀ f ∈ claude.readerLoop uc body fin, f.Error = none → f.Response ≠ []) := by
  have hO : ∀ (uo : Str → Except Str openai.Event) (line : Str) (ev : openai.Event),
      strings.HasPrefix (strings.TrimSpace line) "data:".toList = true →
      strings.TrimPrefix (strings.TrimSpace line) "data: ".toList ≠ "[DONE]".toList →
      uo (strings.TrimPrefix (strings.TrimSpace line) "data: ".toList) = .ok ev →
      openai.onLine uo line
        = .next ((ev.Choices.filter fun c => decide (c ≠ [])).map
            fun c => { ID := ev.ID, Response := c, Error := none }) := by
    intro uo line ev hdata hpay hok
    rw [openai_onLine_data uo line hdata hpay, hok]
    simp only [openai_emitChoices_eq]
  have hC : ∀ (uc : Str → Except Str claude.Event) (line : Str) (ev : claude.Event),
      strings.HasPrefix (strings.TrimSpace line) "data:".toList = true →
      strings.TrimPrefix (strings.TrimSpace line) "data: ".toList ≠ "[DONE]".toList →
      uc (strings.TrimPrefix (strings.TrimSpace line) "data: ".toList) = .ok ev →
      claude.onLine uc line
        = .next (if ev.Completion ≠ [] then
            [{ ID := [], Response := ev.Completion, Error := none }] else []) := by
    intro uc line ev hdata hpay hok
    rw [claude_onLine_data uc line hdata hpay, hok]
    by_cases h : ev.Completion = [] <;> simp [h]
  refine ⟨hO, hC, ?_, ?_, ?_, ?_⟩
  · intro uo pre line rest fin ev hpre hline hdata hpay hok
    unfold openai.readerLoop
    rw [readLines_body pre line rest hline, readLoop_line _ fin _ _ _ hpre,
      hO uo _ ev hdata hpay hok]
    simp
  · intro uc pre line rest fin ev hpre hline hdata hpay hok
    unfold claude.readerLoop
    rw [readLines_body pre line rest hline, readLoop_line _ fin _ _ _ hpre,
      hC uc _ ev hdata hpay hok]
    simp
  · intro uo body fin
    exact readLoop_error_free_nonempty _ fin (openai_onLine_next uo) (openai_onLine_stop uo) _
  · intro uc body fin
    exact readLoop_error_free_nonempty _ fin (claude_onLine_next uc) (claude_onLine_stop uc) _

/-- Witness of C4: an OpenAI event with three choices of which the middle one has an
empty delta, and a Claude event with an empty completion followed by one more line. -/
theorem per_event_emission_witness :
    openai.onLine
        (fun _ => .ok { ID := "c9".toList, Choices := ["a".toList, [], "b".toList] })
        "data: \x7b\x7d\n".toList
      = .next [{ ID := "c9".toList, Response := "a".toList, Error := none },
               { ID := "c9".toList, Response := "b".toList, Error := none }]
    ∧ claude.readerLoop sampleClaude
        (joinLines sampleLines ++ ("data: \x7b\x7d".toList ++ '\n' :: joinLines sampleLines))
        .eof
      = claude.readerLoop sampleClaude (joinLines sampleLines) .eof
          ++ (if ({ Completion := [] } : claude.Event).Completion ≠ [] then
                [{ ID := [], Response := ({ Completion := [] } : claude.Event).Completion,
                   Error := none }] else [])
          ++ claude.readerLoop sampleClaude (joinLines sampleLines) .eof :=
  ⟨per_event_emission.1
      (fun _ => .ok { ID := "c9".toList, Choices := ["a".toList, [], "b".toList] })
      "data: \x7b\x7d\n".toList { ID := "c9".toList, Choices := ["a".toList, [], "b".toList] }
      (by decide) (by decide) rfl,
    per_event_emission.2.2.2.1 sampleClaude sampleLines "data: \x7b\x7d".toList
      (joinLines sampleLines) .eof { Completion := [] }
      (by decide) (by decide) (by decide) (by decide) rfl⟩

/-! ## The Claude transcript -/

theorem claude_foldl_history (init : Str) (history : List llm.Conversation) :
    history.foldl
        (fun sb conv =>
          sb ++ "\n\nHuman: ".toList ++ conv.Request ++ "\n\nAssistant: ".toList
            ++ conv.Response)
        init
      = init ++ claude.historyText history := by
  induction history generalizing init with
  | nil => simp [claude.historyText]
  | cons conv rest ih =>
    rw [List.foldl_cons, ih]
    simp [claude.historyText, List.append_assoc]

/-- The prompt of `ClaudeClient.Stream`, written out. -/
theorem claude_buildPrompt_eq (request : llm.GenerateRequest) :
    claude.buildPrompt request
      = (if request.Prompt.System ≠ [] then "\n\nHuman: ".toList ++ request.Prompt.System
          else [])
        ++ (claude.historyText request.History
        ++ ("\n\nHuman: ".toList ++ (request.Prompt.User ++ "\n\nAssistant:".toList))) := by
  unfold claude.buildPrompt
  dsimp only
  rw [claude_foldl_history]
  simp only [List.nil_append, List.append_assoc]

theorem roleMarkers_human (g : Str) :
    roleMarkers ("\n\nHuman: ".toList ++ g) = .human :: roleMarkers g := by
  simp [roleMarkers, List.isPrefixOf]

theorem roleMarkers_assistant (g : Str) :
    roleMarkers ("\n\nAssistant: ".toList ++ g) = .assistant :: roleMarkers g := by
  simp [roleMarkers, List.isPrefixOf]

theorem human_not_straddling (c : Char) (t g : Str)
    (h : "\n\nHuman:".toList.isPrefixOf (c :: t) = false) :
    "\n\nHuman:".toList.isPrefixOf (c :: t ++ '\n' :: '\n' :: g) = false := by
  rcases t with _ | ⟨c1, _ | ⟨c2, _ | ⟨c3, _ | ⟨c4, _ | ⟨c5, _ | ⟨c6, _ | ⟨c7, t⟩⟩⟩⟩⟩⟩⟩ <;>
    simp_all [List.isPrefixOf]
  exact h

theorem assistant_not_straddling (c : Char) (t g : Str)
    (h : "\n\nAssistant:".toList.isPrefixOf (c :: t) = false) :
    "\n\nAssistant:".toList.isPrefixOf (c :: t ++ '\n' :: '\n' :: g) = false := by
  rcases t with _ | ⟨c1, _ | ⟨c2, _ | ⟨c3, _ | ⟨c4, _ | ⟨c5, _ | ⟨c6, _ | ⟨c7, _ | ⟨c8,
    _ | ⟨c9, _ | ⟨c10, _ | ⟨c11, t⟩⟩⟩⟩⟩⟩⟩⟩⟩⟩⟩ <;>
    simp_all [List.isPrefixOf]
  exact h

/-- A text without role marker in front of a text that starts with two newlines
contributes no marker: none lies in it and none straddles the boundary. -/
theorem roleMarkers_free_append (t g : Str) (h : roleMarkers t = []) :
    roleMarkers (t ++ '\n' :: '\n' :: g) = roleMarkers ('\n' :: '\n' :: g) := by
  induction t with
  | nil => rfl
  | cons c t ih =>
    rw [roleMarkers] at h
    cases hH : "\n\nHuman:".toList.isPrefixOf (c :: t) with
    | true =>
      rw [hH] at h
      exact absurd h (by simp)
    | false =>
      cases hA : "\n\nAssistant:".toList.isPrefixOf (c :: t) with
      | true =>
        rw [hH, hA] at h
        exact absurd h (by simp)
      | false =>
        rw [hH, hA] at h
        simp only [Bool.false_eq_true, if_false] at h
        have h1 := human_not_straddling c t g hH
        have h2 := assistant_not_straddling c t g hA
        rw [List.cons_append] at h1 h2 ⊢
        rw [roleMarkers]
        simp only [h1, h2, Bool.false_eq_true, if_false]
        exact ih h

theorem roleMarkers_history (history : List llm.Conversation) (g : Str)
    (h : ∀ conv ∈ history, roleMarkers conv.Request = [] ∧ roleMarkers conv.Response = []) :
    roleMarkers (claude.historyText history ++ '\n' :: '\n' :: g)
      = turnMarkers history.length ++ roleMarkers ('\n' :: '\n' :: g) := by
  induction history with
  | nil => simp [claude.historyText, turnMarkers]
  | cons conv rest ih =>
    have hc := h conv (by simp)
    have ih := ih (fun x hx => h x (by simp [hx]))
    have hstart : ∃ g2, claude.historyText rest ++ '\n' :: '\n' :: g = '\n' :: '\n' :: g2 := by
      cases rest with
      | nil => exact ⟨g, rfl⟩
      | cons x xs => exact ⟨_, rfl⟩
    obtain ⟨g2, hg2⟩ := hstart
    have e : claude.historyText (conv :: rest) ++ '\n' :: '\n' :: g
        = "\n\nHuman: ".toList ++ (conv.Request ++ '\n' :: '\n' ::
            ("Assistant: ".toList ++ (conv.Response
              ++ (claude.historyText rest ++ '\n' :: '\n' :: g)))) := by
      simp [claude.historyText, List.append_assoc]
    rw [e, roleMarkers_human, roleMarkers_free_append _ _ hc.1]
    have e2 : '\n' :: '\n' :: ("Assistant: ".toList ++ (conv.Response
              ++ (claude.historyText rest ++ '\n' :: '\n' :: g)))
        = "\n\nAssistant: ".toList ++ (conv.Response
              ++ (claude.historyText rest ++ '\n' :: '\n' :: g)) := rfl
    rw [e2, roleMarkers_assistant, hg2, roleMarkers_free_append _ _ hc.2, ← hg2, ih]
    simp [turnMarkers]

theorem alternatesFrom_turnMarkers (n : Nat) :
    alternatesFrom .human (turnMarkers n ++ [.human, .assistant]) = true := by
  induction n with
  | zero => decide
  | succ n ih => simpa [turnMarkers, alternatesFrom, Role.other] using ih

/-- The role markers of the prompt of `ClaudeClient.Stream`, for texts without markers. -/
theorem claude_roleMarkers_buildPrompt (request : llm.GenerateRequest)
    (h : markerFree request) :
    roleMarkers (claude.buildPrompt request)
      = (if request.Prompt.System ≠ [] then [.human] else [])
          ++ (turnMarkers request.History.length ++ [.human, .assistant]) := by
  obtain ⟨hs, hu, hh⟩ := h
  have etail : "\n\nHuman: ".toList ++ (request.Prompt.User ++ "\n\nAssistant:".toList)
      = '\n' :: '\n' :: ("Human: ".toList ++ (request.Prompt.User ++ "\n\nAssistant:".toList)) :=
    rfl
  have htail : roleMarkers ('\n' :: '\n' ::
      ("Human: ".toList ++ (request.Prompt.User ++ "\n\nAssistant:".toList)))
        = [.human, .assistant] := by
    rw [← etail, roleMarkers_human]
    have e3 : "\n\nAssistant:".toList = '\n' :: '\n' :: "Assistant:".toList := rfl
    rw [e3, roleMarkers_free_append _ _ hu]
    decide
  have hrest : roleMarkers (claude.historyText request.History
        ++ ("\n\nHuman: ".toList ++ (request.Prompt.User ++ "\n\nAssistant:".toList)))
      = turnMarkers request.History.length ++ [.human, .assistant] := by
    rw [etail, roleMarkers_history _ _ hh, htail]
  have hstart : ∃ g2, claude.historyText request.History
        ++ ("\n\nHuman: ".toList ++ (request.Prompt.User ++ "\n\nAssistant:".toList))
      = '\n' :: '\n' :: g2 := by
    cases request.History with
    | nil => exact ⟨_, rfl⟩
    | cons x xs => exact ⟨_, rfl⟩
  rw [claude_buildPrompt_eq]
  by_cases hsys : request.Prompt.System = []
  · simp only [hsys, ne_eq, not_true_eq_false, if_false, List.nil_append]
    exact hrest
  · simp only [hsys, ne_eq, not_false_eq_true, if_true, List.append_assoc]
    obtain ⟨g2, hg2⟩ := hstart
    rw [roleMarkers_human, hg2, roleMarkers_free_append _ _ hs, ← hg2, hrest]
    rfl

/-- C5, as stated, fails: with a non-empty system prompt and texts free of markers the
transcript starts with two `Human` markers, so its markers do not alternate. -/
theorem claude_prompt_not_alternating :
    markerFree sampleRequest
    ∧ roleMarkers (claude.buildPrompt sampleRequest) = [.human, .human, .assistant]
    ∧ alternatesFrom .human (roleMarkers (claude.buildPrompt sampleRequest)) = false := by
  refine ⟨⟨by decide, by decide, ?_⟩, by decide, by decide⟩
  intro conv hconv
  simp [sampleRequest] at hconv

/-- C5, amended. For a request whose texts carry no role marker, the role markers of the
prompt built by `ClaudeClient.Stream` are, in order: one `Human` marker for the system
prompt when it is not empty, then `Human, Assistant` for each history pair, then `Human`
and the open `Assistant` marker. So the sequence starts with `Human` and the prompt ends
with "\n\nAssistant:"; the markers alternate strictly when the system prompt is empty,
and from the second marker on when it is not. -/
theorem claude_prompt_markers (request : llm.GenerateRequest) (h : markerFree request) :
    roleMarkers (claude.buildPrompt request)
      = (if request.Prompt.System ≠ [] then [.human] else [])
          ++ (turnMarkers request.History.length ++ [.human, .assistant])
    ∧ (roleMarkers (claude.buildPrompt request)).head? = some .human
    ∧ (request.Prompt.System = [] →
        alternatesFrom .human (roleMarkers (claude.buildPrompt request)) = true)
    ∧ (request.Prompt.System ≠ [] →
        alternatesFrom .human (roleMarkers (claude.buildPrompt request)).tail = true)
    ∧ "\n\nAssistant:".toList <:+ claude.buildPrompt request := by
  have hm := claude_roleMarkers_buildPrompt request h
  have hsuf : "\n\nAssistant:".toList <:+ claude.buildPrompt request := by
    rw [claude_buildPrompt_eq]
    refine ⟨(if request.Prompt.System ≠ [] then "\n\nHuman: ".toList ++ request.Prompt.System
          else []) ++ (claude.historyText request.History
            ++ ("\n\nHuman: ".toList ++ request.Prompt.User)), ?_⟩
    simp only [List.append_assoc]
  refine ⟨hm, ?_, ?_, ?_, hsuf⟩
  · rw [hm]
    by_cases hsys : request.Prompt.System = []
    · cases hn : request.History.length <;> simp [hsys, turnMarkers]
    · simp [hsys]
  · intro hsys
    rw [hm]
    simpa [hsys] using alternatesFrom_turnMarkers request.History.length
  · intro hsys
    rw [hm]
    simpa [hsys] using alternatesFrom_turnMarkers request.History.length

/-- Witness of the amended C5: a non-empty system prompt and two history pairs. -/
theorem claude_prompt_markers_witness :
    roleMarkers (claude.buildPrompt sampleDialogue)
      = (if sampleDialogue.Prompt.System ≠ [] then [.human] else [])
          ++ (turnMarkers sampleDialogue.History.length ++ [.human, .assistant])
    ∧ (roleMarkers (claude.buildPrompt sampleDialogue)).head? = some .human
    ∧ (sampleDialogue.Prompt.System = [] →
        alternatesFrom .human (roleMarkers (claude.buildPrompt sampleDialogue)) = true)
    ∧ (sampleDialogue.Prompt.System ≠ [] →
        alternatesFrom .human (roleMarkers (claude.buildPrompt sampleDialogue)).tail = true)
    ∧ "\n\nAssistant:".toList <:+ claude.buildPrompt sampleDialogue :=
  claude_prompt_markers sampleDialogue ⟨by decide, by decide, by decide⟩

/-- The prompt of the sample dialogue, evaluated. -/
theorem claude_prompt_sample_eval :
    claude.buildPrompt sampleDialogue
      = ("\n\nHuman: You are a coach.\n\nHuman: Hello\n\nAssistant: Hi!"
          ++ "\n\nHuman: Rank me\n\nAssistant: Gold\n\nHuman: And now?\n\nAssistant:").toList := by
  decide

/-! ## The OpenAI message list -/

theorem openai_foldl_history (init : List openai.chatMessage)
    (history : List llm.Conversation) :
    history.foldl
        (fun msgs conv =>
          (msgs ++ [{ Role := "user".toList, Content := conv.Request }])
            ++ [{ Role := "assistant".toList, Content := conv.Response }])
        init
      = init ++ openai.historyMessages history := by
  induction history generalizing init with
  | nil => simp [openai.historyMessages]
  | cons conv rest ih =>
    rw [List.foldl_cons, ih]
    simp [openai.historyMessages, List.append_assoc]

theorem openai_length_historyMessages (history : List llm.Conversation) :
    (openai.historyMessages history).length = 2 * history.length := by
  induction history with
  | nil => rfl
  | cons conv rest ih => simp [openai.historyMessages, ih]; omega

theorem openai_historyMessages_get (history : List llm.Conversation) (i : Nat)
    (conv : llm.Conversation) (h : history[i]? = some conv) :
    (openai.historyMessages history)[2 * i]?
        = some { Role := "user".toList, Content := conv.Request }
    ∧ (openai.historyMessages history)[2 * i + 1]?
        = some { Role := "assistant".toList, Content := conv.Response } := by
  induction history generalizing i with
  | nil => simp at h
  | cons c rest ih =>
    cases i with
    | zero =>
      simp only [List.getElem?_cons_zero, Option.some.injEq] at h
      subst h
      simp [openai.historyMessages]
    | succ i =>
      simp only [List.getElem?_cons_succ] at h
      have := ih i h
      have e1 : 2 * (i + 1) = (2 * i + 1) + 1 := by omega
      have e2 : 2 * (i + 1) + 1 = ((2 * i + 1) + 1) + 1 := by omega
      rw [e1]
      simp only [openai.historyMessages, List.getElem?_cons_succ]
      exact this

/-- C6. The message list built by `Client.Stream` is the `system` message, then a `user`
and an `assistant` message for each history pair in the given order, then the `user`
message with the user prompt. It has `2 * n + 2` messages for `n` pairs; the first is
the `system` message, also for an empty system prompt, and it is the only one; the last
is the `user` message of the user prompt; the pair at index `i` of the history is at the
indices `2 * i + 1` and `2 * i + 2`. -/
theorem openai_message_list (request : llm.GenerateRequest) :
    openai.buildMessages request
      = [{ Role := "system".toList, Content := request.Prompt.System }]
          ++ openai.historyMessages request.History
          ++ [{ Role := "user".toList, Content := request.Prompt.User }]
    ∧ (openai.buildMessages request).length = 2 * request.History.length + 2
    ∧ (openai.buildMessages request).head?
        = some { Role := "system".toList, Content := request.Prompt.System }
    ∧ ((openai.buildMessages request).filter
        fun m => decide (m.Role = "system".toList)).length = 1
    ∧ (openai.buildMessages request).getLast?
        = some { Role := "user".toList, Content := request.Prompt.User }
    ∧ ∀ (i : Nat) (conv : llm.Conversation), request.History[i]? = some conv →
        (openai.buildMessages request)[2 * i + 1]?
            = some { Role := "user".toList, Content := conv.Request }
        ∧ (openai.buildMessages request)[2 * i + 2]?
            = some { Role := "assistant".toList, Content := conv.Response } := by
  have e : openai.buildMessages request
      = [{ Role := "system".toList, Content := request.Prompt.System }]
          ++ openai.historyMessages request.History
          ++ [{ Role := "user".toList, Content := request.Prompt.User }] := by
    unfold openai.buildMessages
    dsimp only
    rw [openai_foldl_history]
  have hsys : ∀ history : List llm.Conversation,
      (openai.historyMessages history).filter (fun m => decide (m.Role = "system".toList))
        = [] := by
    intro history
    induction history with
    | nil => rfl
    | cons c rest ih =>
      have h1 : ¬ ("user".toList = "system".toList) := by decide
      have h2 : ¬ ("assistant".toList = "system".toList) := by decide
      simp only [openai.historyMessages, List.filter_cons, h1, h2, decide_False,
        Bool.false_eq_true, if_false]
      exact ih
  refine ⟨e, ?_, ?_, ?_, ?_, ?_⟩
  · rw [e]
    simp [openai_length_historyMessages]
  · rw [e]
    rfl
  · rw [e]
    have h1 : ¬ ("user".toList = "system".toList) := by decide
    simp only [List.filter_append, hsys, List.filter_cons, h1, decide_False, decide_True,
      Bool.false_eq_true, if_false, if_true, List.filter_nil, List.append_nil,
      List.length_singleton]
  · rw [e, List.getLast?_append]
    rfl
  · intro i conv hi
    have hg := openai_historyMessages_get request.History i conv hi
    have hlt : i < request.History.length := by
      rcases Nat.lt_or_ge i request.History.length with h | h
      · exact h
      · rw [List.getElem?_eq_none h] at hi
        cases hi
    have hlen := openai_length_historyMessages request.History
    rw [e]
    constructor
    · rw [List.append_assoc, List.singleton_append, List.getElem?_cons_succ,
        List.getElem?_append_left (by omega)]
      exact hg.1
    · rw [List.append_assoc, List.singleton_append, List.getElem?_cons_succ,
        List.getElem?_append_left (by omega)]
      exact hg.2

/-- Witness of C6: the second pair of the sample dialogue sits at the indices 3 and 4. -/
theorem openai_message_list_witness :
    (openai.buildMessages sampleDialogue)[2 * 1 + 1]?
        = some { Role := "user".toList, Content := "Rank me".toList }
    ∧ (openai.buildMessages sampleDialogue)[2 * 1 + 2]?
        = some { Role := "assistant".toList, Content := "Gold".toList } :=
  (openai_message_list sampleDialogue).2.2.2.2.2 1
    { Request := "Rank me".toList, Response := "Gold".toList } (by decide)

/-! ## The orchestrator -/

theorem relay_length (quote : Str → Str) (now : Nat → Str) (k : Nat)
    (stream : List llm.GenerateStreamResponse) :
    (stat_analyzer.relay quote now k stream).length = stream.length := by
  induction stream generalizing k with
  | nil => rfl
  | cons msg rest ih => simp [stat_analyzer.relay, ih]

theorem relay_getElem (quote : Str → Str) (now : Nat → Str) (k : Nat)
    (stream : List llm.GenerateStreamResponse) (i : Nat) (msg : llm.GenerateStreamResponse)
    (h : stream[i]? = some msg) :
    (stat_analyzer.relay quote now k stream)[i]?
      = some { ID := msg.ID,
               Content := "\x7b\"segment\":".toList ++ quote (now (k + i)) ++ "\x7d".toList
                 ++ "\n".toList ++ msg.Response,
               Error := msg.Error } := by
  induction stream generalizing k i with
  | nil => simp at h
  | cons m rest ih =>
    cases i with
    | zero =>
      simp only [List.getElem?_cons_zero, Option.some.injEq] at h
      subst h
      simp [stat_analyzer.relay, stat_analyzer.marshalMeta]
    | succ i =>
      simp only [List.getElem?_cons_succ] at h
      have := ih (k + 1) i h
      simp only [stat_analyzer.relay, List.getElem?_cons_succ]
      rw [this]
      have e : k + 1 + i = k + (i + 1) := by omega
      rw [e]

theorem relay_map_ID (quote : Str → Str) (now : Nat → Str) (k : Nat)
    (stream : List llm.GenerateStreamResponse) :
    (stat_analyzer.relay quote now k stream).map (fun f => f.ID)
      = stream.map (fun f => f.ID) := by
  induction stream generalizing k with
  | nil => rfl
  | cons msg rest ih => simp [stat_analyzer.relay, ih]

theorem relay_map_Error (quote : Str → Str) (now : Nat → Str) (k : Nat)
    (stream : List llm.GenerateStreamResponse) :
    (stat_analyzer.relay quote now k stream).map (fun f => f.Error)
      = stream.map (fun f => f.Error) := by
  induction stream generalizing k with
  | nil => rfl
  | cons msg rest ih => simp [stat_analyzer.relay, ih]

/-- C7. Enrichment preserves the stream. When the lookup succeeds and the streamer
answers with the fragments `input`, whether they carry errors or not, `BuildAnalysis`
answers with a stream `out` of as many fragments; the one at index `i` has the id and the
error of the one at index `i` of `input`, and its content is the envelope, the JSON
object whose `segment` is the reading number `i` of the clock, then a newline, then the
content of that fragment unchanged. Ids and errors are, as sequences, those of the
input; the stream is a finite list, closed after the last fragment of the input. -/
theorem enrichment_preserves_stream (deps : stat_analyzer.Deps)
    (req : stat_analyzer.BuildAnalysisRequest) (usr : user.User)
    (input : List llm.GenerateStreamResponse)
    (hu : deps.FindOne req.UserID = .ok usr)
    (hs : deps.Stream (stat_analyzer.genReq deps) = .ok input) :
    ∃ out, (stat_analyzer.BuildAnalysis deps req).1 = .ok out
      ∧ out.length = input.length
      ∧ (∀ (i : Nat) (msg : llm.GenerateStreamResponse), input[i]? = some msg →
          out[i]?
            = some { ID := msg.ID,
                     Content := "\x7b\"segment\":".toList ++ deps.quote (deps.now i)
                       ++ "\x7d".toList ++ "\n".toList ++ msg.Response,
                     Error := msg.Error })
      ∧ out.map (fun f => f.ID) = input.map (fun f => f.ID)
      ∧ out.map (fun f => f.Error) = input.map (fun f => f.Error) := by
  refine ⟨stat_analyzer.relay deps.quote deps.now 0 input, ?_, relay_length _ _ _ _, ?_,
    relay_map_ID _ _ _ _, relay_map_Error _ _ _ _⟩
  · unfold stat_analyzer.BuildAnalysis
    rw [hu]
    simp only [hs]
  · intro i msg hi
    have := relay_getElem deps.quote deps.now 0 input i msg hi
    rw [Nat.zero_add] at this
    exact this

/-- The enriched stream of the sample collaborators, evaluated. -/
theorem enrichment_sample_eval :
    (stat_analyzer.BuildAnalysis sampleDeps { UserID := 7 }).1
      = .ok [{ ID := "c1".toList,
               Content := "\x7b\"segment\":\"2025-01-01T00:00:00.000000000Z\"\x7d\na".toList,
               Error := none },
             { ID := "c1".toList,
               Content := "\x7b\"segment\":\"2025-01-01T00:00:00.000000001Z\"\x7d\nb".toList,
               Error := none },
             { ID := [],
               Content := "\x7b\"segment\":\"2025-01-01T00:00:00.000000002Z\"\x7d\n".toList,
               Error := some "reset".toList }] := by
  rfl

/-- Witness of C7: the sample collaborators, whose streamer sends two fragments and an
error fragment. -/
theorem enrichment_preserves_stream_witness :
    ∃ out, (stat_analyzer.BuildAnalysis sampleDeps { UserID := 7 }).1 = .ok out
      ∧ out.length = 3
      ∧ out.map (fun f => f.Error) = [none, none, some "reset".toList] := by
  obtain ⟨out, h1, h2, _, _, h5⟩ := enrichment_preserves_stream sampleDeps { UserID := 7 }
    { ID := 7, Username := "ada".toList, SolanaWalletPublicKey := [], PasswordHash := [],
      Games := ["dota".toList] }
    [{ ID := "c1".toList, Response := "a".toList, Error := none },
     { ID := "c1".toList, Response := "b".toList, Error := none },
     { ID := [], Response := [], Error := some "reset".toList }] rfl rfl
  exact ⟨out, h1, h2, h5⟩

/-- C8. The orchestrator short-circuits. `BuildAnalysis` answers with an immediate error,
and so with no stream, exactly when the lookup fails or the streamer answers the
assembled request with an immediate error. When the lookup fails, its error is returned
wrapped and the only call made is the lookup: the streamer is not invoked. When the
lookup succeeds and the streamer answers with an immediate error, that error is returned
wrapped as the immediate error. -/
theorem build_analysis_short_circuit (deps : stat_analyzer.Deps)
    (req : stat_analyzer.BuildAnalysisRequest) :
    ((∃ e, (stat_analyzer.BuildAnalysis deps req).1 = .error e)
      ↔ ((∃ e, deps.FindOne req.UserID = .error e)
          ∨ ∃ e, deps.Stream (stat_analyzer.genReq deps) = .error e))
    ∧ (∀ e, deps.FindOne req.UserID = .error e →
        stat_analyzer.BuildAnalysis deps req
          = (.error ("user lookup: ".toList ++ e), [.FindOne req.UserID]))
    ∧ (∀ usr e, deps.FindOne req.UserID = .ok usr →
        deps.Stream (stat_analyzer.genReq deps) = .error e →
        stat_analyzer.BuildAnalysis deps req
          = (.error ("LLM stream: ".toList ++ e),
              [.FindOne req.UserID, .Stream (stat_analyzer.genReq deps)])) := by
  refine ⟨?_, ?_, ?_⟩
  · unfold stat_analyzer.BuildAnalysis
    cases hf : deps.FindOne req.UserID with
    | error e => simp
    | ok usr =>
      cases hs : deps.Stream (stat_analyzer.genReq deps) with
      | error e => simp
      | ok stream => simp
  · intro e hf
    unfold stat_analyzer.BuildAnalysis
    rw [hf]
  · intro usr e hf hs
    unfold stat_analyzer.BuildAnalysis
    rw [hf]
    simp only [hs]

/-- Witness of C8: an unknown user, and a streamer that refuses the request. -/
theorem build_analysis_short_circuit_witness :
    stat_analyzer.BuildAnalysis sampleDeps { UserID := 8 }
      = (.error ("user lookup: ".toList ++ "user not found".toList), [.FindOne 8])
    ∧ stat_analyzer.BuildAnalysis refusingDeps { UserID := 7 }
      = (.error ("LLM stream: ".toList ++ "stream request failed: 401".toList),
          [.FindOne 7, .Stream (stat_analyzer.genReq refusingDeps)]) :=
  ⟨(build_analysis_short_circuit sampleDeps { UserID := 8 }).2.1 _ rfl,
    (build_analysis_short_circuit refusingDeps { UserID := 7 }).2.2 _ _ rfl rfl⟩

/-! ## The boundary -/

/-- What the handler does with a body that its decoder rejects or decodes to a request
whose identifier is nil: it answers with status 400, does not invoke `BuildAnalysis`, so
that no collaborator is called, and writes the one line of the error and no event.
`Validate` returns an error exactly when the identifier is the nil UUID. -/
theorem handler_rejects_request :
    (∀ r : http.AnalysisRequest, (∃ e, r.Validate = some e) ↔ r.UserID = uuid.Nil)
    ∧ (∀ (Call : Type)
        (agent : stat_analyzer.BuildAnalysisRequest →
          Except Str (List stat_analyzer.BuildAnalysisStreamResponse) × List Call)
        (decode : Str → Except Str http.AnalysisRequest) (quote : Str → Str)
        (flusher : Bool) (body : Str),
        ((∃ e, decode body = .error e)
          ∨ ∃ r, decode body = .ok r ∧ r.UserID = uuid.Nil) →
        (http.makeAnalysisHandler agent decode quote flusher body).status = 400
        ∧ (http.makeAnalysisHandler agent decode quote flusher body).invoked = []
        ∧ (http.makeAnalysisHandler agent decode quote flusher body).calls = []
        ∧ ((http.makeAnalysisHandler agent decode quote flusher body).written
              = ["invalid request body\n".toList]
            ∨ (http.makeAnalysisHandler agent decode quote flusher body).written
              = ["userId is required\n".toList])) := by
  constructor
  · intro r
    unfold http.AnalysisRequest.Validate
    by_cases h : r.UserID = uuid.Nil <;> simp [h]
  · intro Call agent decode quote flusher body h
    unfold http.makeAnalysisHandler
    rcases h with ⟨e, he⟩ | ⟨r, hr, hnil⟩
    · rw [he]
      simp
    · rw [hr]
      simp only [http.AnalysisRequest.Validate, hnil, if_true]
      exact ⟨trivial, trivial, trivial, Or.inr rfl⟩

/-- An unfinished object, the empty object and an object with a `subjectID` only, with
the sample decoder and the sample collaborators behind the handler: no collaborator is
called. -/
theorem handler_rejects_request_sample :
    ((http.makeAnalysisHandler (stat_analyzer.BuildAnalysis sampleDeps) sampleDecode
        quotePlain true "\x7b\"subjectID\"".toList).status = 400
      ∧ (http.makeAnalysisHandler (stat_analyzer.BuildAnalysis sampleDeps) sampleDecode
        quotePlain true "\x7b\"subjectID\"".toList).calls = [])
    ∧ ((http.makeAnalysisHandler (stat_analyzer.BuildAnalysis sampleDeps) sampleDecode
        quotePlain true "\x7b\x7d".toList).status = 400
      ∧ (http.makeAnalysisHandler (stat_analyzer.BuildAnalysis sampleDeps) sampleDecode
        quotePlain true "\x7b\x7d".toList).calls = [])
    ∧ ((http.makeAnalysisHandler (stat_analyzer.BuildAnalysis sampleDeps) sampleDecode
        quotePlain true "\x7b \"subjectID\": \"not-a-valid-id\" \x7d".toList).status = 400
      ∧ (http.makeAnalysisHandler (stat_analyzer.BuildAnalysis sampleDeps) sampleDecode
        quotePlain true "\x7b \"subjectID\": \"not-a-valid-id\" \x7d".toList).calls = []) :=
  have h1 := handler_rejects_request.2 stat_analyzer.Call
    (stat_analyzer.BuildAnalysis sampleDeps) sampleDecode quotePlain true
    "\x7b\"subjectID\"".toList (Or.inl ⟨"invalid character".toList, rfl⟩)
  have h2 := handler_rejects_request.2 stat_analyzer.Call
    (stat_analyzer.BuildAnalysis sampleDeps) sampleDecode quotePlain true
    "\x7b\x7d".toList (Or.inr ⟨{ UserID := uuid.Nil }, rfl, rfl⟩)
  have h3 := handler_rejects_request.2 stat_analyzer.Call
    (stat_analyzer.BuildAnalysis sampleDeps) sampleDecode quotePlain true
    "\x7b \"subjectID\": \"not-a-valid-id\" \x7d".toList
    (Or.inr ⟨{ UserID := uuid.Nil }, rfl, rfl⟩)
  ⟨⟨h1.1, h1.2.2.1⟩, ⟨h2.1, h2.2.2.1⟩, ⟨h3.1, h3.2.2.1⟩⟩

/-- A valid request for the sample user, for contrast: the handler answers 200 and the
agent looks the user up and calls the streamer. -/
theorem valid_request_sample_eval :
    (http.makeAnalysisHandler (stat_analyzer.BuildAnalysis sampleDeps) sampleDecode
        quotePlain true
        "\x7b\"userId\":\"00000000-0000-0000-0000-000000000007\"\x7d".toList).status = 200
    ∧ (http.makeAnalysisHandler (stat_analyzer.BuildAnalysis sampleDeps) sampleDecode
        quotePlain true
        "\x7b\"userId\":\"00000000-0000-0000-0000-000000000007\"\x7d".toList).calls
      = [.FindOne 7, .Stream (stat_analyzer.genReq sampleDeps)] := by
  constructor <;> rfl

theorem writeEvents_length (quote : Str → Str)
    (stream : List stat_analyzer.BuildAnalysisStreamResponse) :
    (http.writeEvents quote stream).length = stream.length := by
  induction stream with
  | nil => rfl
  | cons resp rest ih => simp [http.writeEvents, http.marshalResponse, ih]

theorem writeEvents_getElem (quote : Str → Str)
    (stream : List stat_analyzer.BuildAnalysisStreamResponse) (i : Nat)
    (resp : stat_analyzer.BuildAnalysisStreamResponse) (h : stream[i]? = some resp) :
    (http.writeEvents quote stream)[i]?
      = some ("event: analysis\ndata: ".toList
          ++ ("\x7b\"id\":".toList ++ quote resp.ID ++ ",\"content\":".toList
              ++ quote resp.Content
              ++ (match resp.Error with
                  | some err => if err ≠ [] then ",\"error\":".toList ++ quote err else []
                  | none => [])
              ++ "\x7d".toList)
          ++ "\n\n".toList) := by
  induction stream generalizing i with
  | nil => simp at h
  | cons r rest ih =>
    cases i with
    | zero =>
      simp only [List.getElem?_cons_zero, Option.some.injEq] at h
      subst h
      cases he : r.Error with
      | none => simp [http.writeEvents, http.marshalResponse, he]
      | some err => simp [http.writeEvents, http.marshalResponse, he]
    | succ i =>
      simp only [List.getElem?_cons_succ] at h
      simp only [http.writeEvents, http.marshalResponse, List.getElem?_cons_succ]
      exact ih i h

/-- C10. Event encoding at the boundary. When the handler streams, it writes for the
fragments of the analysis stream, in order, one event each, and after them the end
event. The event of a fragment is "event: analysis\ndata: " then `J` then "\n\n", where
`J` is the JSON object with the `id` and the `content` of the fragment, in this order,
and then an `error` member with the message of the failure exactly when the fragment
carries a failure whose message is not empty; a fragment without failure has no `error`
member. -/
theorem event_encoding :
    (∀ (quote : Str → Str) (stream : List stat_analyzer.BuildAnalysisStreamResponse),
        (http.writeEvents quote stream).length = stream.length
        ∧ ∀ (i : Nat) (resp : stat_analyzer.BuildAnalysisStreamResponse),
            stream[i]? = some resp →
            (http.writeEvents quote stream)[i]?
              = some ("event: analysis\ndata: ".toList
                  ++ ("\x7b\"id\":".toList ++ quote resp.ID ++ ",\"content\":".toList
                      ++ quote resp.Content
                      ++ (match resp.Error with
                          | some err =>
                            if err ≠ [] then ",\"error\":".toList ++ quote err else []
                          | none => [])
                      ++ "\x7d".toList)
                  ++ "\n\n".toList))
    ∧ (∀ (Call : Type)
        (agent : stat_analyzer.BuildAnalysisRequest →
          Except Str (List stat_analyzer.BuildAnalysisStreamResponse) × List Call)
        (decode : Str → Except Str http.AnalysisRequest) (quote : Str → Str) (body : Str)
        (r : http.AnalysisRequest) (stream : List stat_analyzer.BuildAnalysisStreamResponse),
        decode body = .ok r → r.UserID ≠ uuid.Nil →
        (agent { UserID := r.UserID }).1 = .ok stream →
        (http.makeAnalysisHandler agent decode quote true body).written
          = http.writeEvents quote stream
              ++ ["event: end\ndata: \x7b\x7d\n\n".toList]) := by
  refine ⟨fun quote stream =>
    ⟨writeEvents_length quote stream, writeEvents_getElem quote stream⟩, ?_⟩
  intro Call agent decode quote body r stream hd hr ha
  unfold http.makeAnalysisHandler
  rw [hd]
  simp only [http.AnalysisRequest.Validate, hr, if_false]
  cases hag : agent { UserID := r.UserID } with
  | mk res calls =>
    rw [hag] at ha
    simp only at ha
    subst ha
    rfl

/-- Witness of C10: the handler on the sample collaborators; the third fragment carries
the failure `reset`. -/
theorem event_encoding_witness :
    (http.makeAnalysisHandler (stat_analyzer.BuildAnalysis sampleDeps) sampleDecode
        quotePlain true
        "\x7b\"userId\":\"00000000-0000-0000-0000-000000000007\"\x7d".toList).written
      = http.writeEvents quotePlain
          (stat_analyzer.relay quotePlain sampleNow 0
            [{ ID := "c1".toList, Response := "a".toList, Error := none },
             { ID := "c1".toList, Response := "b".toList, Error := none },
             { ID := [], Response := [], Error := some "reset".toList }])
          ++ ["event: end\ndata: \x7b\x7d\n\n".toList] :=
  event_encoding.2 stat_analyzer.Call (stat_analyzer.BuildAnalysis sampleDeps) sampleDecode
    quotePlain "\x7b\"userId\":\"00000000-0000-0000-0000-000000000007\"\x7d".toList
    { UserID := 7 } _ rfl (by decide) rfl

/-- The events of a fragment without failure and of one with the failure `reset`,
evaluated. -/
theorem event_encoding_sample_eval :
    http.writeEvents quotePlain
        [{ ID := "c1".toList, Content := "a".toList, Error := none },
         { ID := [], Content := [], Error := some "reset".toList }]
      = ["event: analysis\ndata: \x7b\"id\":\"c1\",\"content\":\"a\"\x7d\n\n".toList,
         "event: analysis\ndata: \x7b\"id\":\"\",\"content\":\"\",\"error\":\"reset\"\x7d\n\n".toList] := by
  decide

/-! ## The adapters as streamers -/

/-- When the request is sent and answered with status 200, `Client.Stream` returns the
channel on which the reader goroutine sends the fragments of the body. -/
theorem openai_Stream_ok (unmarshal : Str → Except Str openai.Event)
    (http : Transport (List openai.chatMessage)) (request : llm.GenerateRequest)
    (resp : HTTPResponse)
    (hm : http.Marshal (openai.buildMessages request) = .ok ())
    (hn : http.NewRequest = .ok ())
    (hd : http.Do (openai.buildMessages request) = .ok resp)
    (hs : resp.StatusCode = 200) :
    openai.Client.Stream unmarshal http request
      = .ok (openai.readerLoop unmarshal resp.Body resp.End) := by
  unfold openai.Client.Stream
  simp only [hm, hn, hd, hs, ne_eq, not_true_eq_false, if_false]

/-- When the request is sent and answered with status 200, `ClaudeClient.Stream` returns
the channel on which the reader goroutine sends the fragments of the body. -/
theorem claude_Stream_ok (unmarshal : Str → Except Str claude.Event)
    (http : Transport Str) (request : llm.GenerateRequest) (resp : HTTPResponse)
    (hm : http.Marshal (claude.buildPrompt request) = .ok ())
    (hn : http.NewRequest = .ok ())
    (hd : http.Do (claude.buildPrompt request) = .ok resp)
    (hs : resp.StatusCode = 200) :
    claude.ClaudeClient.Stream unmarshal http request
      = .ok (claude.readerLoop unmarshal resp.Body resp.End) := by
  unfold claude.ClaudeClient.Stream
  simp only [hm, hn, hd, hs, ne_eq, not_true_eq_false, if_false]

/-! ## The terminal event and the events before it -/

theorem writeEvents_append (quote : Str → Str)
    (a b : List stat_analyzer.BuildAnalysisStreamResponse) :
    http.writeEvents quote (a ++ b) = http.writeEvents quote a ++ http.writeEvents quote b := by
  induction a with
  | nil => rfl
  | cons r rest ih => simp [http.writeEvents, http.marshalResponse, ih]

theorem writeEvents_plain (quote : Str → Str)
    (stream : List stat_analyzer.BuildAnalysisStreamResponse)
    (h : ∀ f ∈ stream, f.Error = none) :
    http.writeEvents quote stream
      = stream.map fun f => http.plainEvent quote f.ID f.Content := by
  induction stream with
  | nil => rfl
  | cons r rest ih =>
    have hr := h r (by simp)
    have ih := ih (fun f hf => h f (by simp [hf]))
    simp [http.writeEvents, http.marshalResponse, http.plainEvent, hr, ih]

theorem writeEvents_error (quote : Str → Str) (r : stat_analyzer.BuildAnalysisStreamResponse)
    (err : Str) (h : r.Error = some err) (hne : err ≠ []) :
    http.writeEvents quote [r] = [http.errorEvent quote r.ID r.Content err] := by
  simp [http.writeEvents, http.marshalResponse, http.errorEvent, h, hne]

theorem writeEvents_ne_endEvent (quote : Str → Str)
    (stream : List stat_analyzer.BuildAnalysisStreamResponse) :
    ∀ w ∈ http.writeEvents quote stream, w ≠ http.endEvent := by
  induction stream with
  | nil => simp [http.writeEvents]
  | cons r rest ih =>
    intro w hw
    simp only [http.writeEvents, http.marshalResponse, List.mem_cons] at hw
    rcases hw with rfl | hw
    · intro h
      simp [http.endEvent] at h
    · exact ih w hw

/-- What the handler does when the request is valid, the writer can flush and
`BuildAnalysis` returns a stream. -/
theorem handler_streams {Call : Type}
    (agent : stat_analyzer.BuildAnalysisRequest →
      Except Str (List stat_analyzer.BuildAnalysisStreamResponse) × List Call)
    (decode : Str → Except Str http.AnalysisRequest) (quote : Str → Str) (body : Str)
    (r : http.AnalysisRequest) (stream : List stat_analyzer.BuildAnalysisStreamResponse)
    (calls : List Call)
    (hd : decode body = .ok r) (hr : r.UserID ≠ uuid.Nil)
    (ha : agent { UserID := r.UserID } = (.ok stream, calls)) :
    http.makeAnalysisHandler agent decode quote true body
      = { status := 200, written := http.writeEvents quote stream ++ [http.endEvent],
          invoked := [{ UserID := r.UserID }], calls := calls } := by
  unfold http.makeAnalysisHandler
  rw [hd]
  simp only [http.AnalysisRequest.Validate, hr, if_false]
  rw [ha]
  rfl

/-- What the handler does when the request is valid, the writer can flush and
`BuildAnalysis` returns an immediate error. -/
theorem handler_setup_error {Call : Type}
    (agent : stat_analyzer.BuildAnalysisRequest →
      Except Str (List stat_analyzer.BuildAnalysisStreamResponse) × List Call)
    (decode : Str → Except Str http.AnalysisRequest) (quote : Str → Str) (body : Str)
    (r : http.AnalysisRequest) (err : Str) (calls : List Call)
    (hd : decode body = .ok r) (hr : r.UserID ≠ uuid.Nil)
    (ha : agent { UserID := r.UserID } = (.error err, calls)) :
    http.makeAnalysisHandler agent decode quote true body
      = { status := 500, written := ["analysis error\n".toList],
          invoked := [{ UserID := r.UserID }], calls := calls } := by
  unfold http.makeAnalysisHandler
  rw [hd]
  simp only [http.AnalysisRequest.Validate, hr, if_false]
  rw [ha]
  rfl

/-- C11. The terminal event. When the request is valid, the writer can flush and
`BuildAnalysis` returns a stream, then for every finite sequence of fragments on it, with
or without error fragments, the handler answers 200 and writes the events of the
fragments, one for each, and then the terminal event "event: end\ndata: {}\n\n": the
body is the bytes of the events followed by those of the terminal event, the terminal
event is the last piece written and it is written exactly once. -/
theorem terminal_event (Call : Type)
    (agent : stat_analyzer.BuildAnalysisRequest →
      Except Str (List stat_analyzer.BuildAnalysisStreamResponse) × List Call)
    (decode : Str → Except Str http.AnalysisRequest) (quote : Str → Str) (body : Str)
    (r : http.AnalysisRequest) (stream : List stat_analyzer.BuildAnalysisStreamResponse)
    (calls : List Call)
    (hd : decode body = .ok r) (hr : r.UserID ≠ uuid.Nil)
    (ha : agent { UserID := r.UserID } = (.ok stream, calls)) :
    (http.makeAnalysisHandler agent decode quote true body).status = 200
    ∧ (http.makeAnalysisHandler agent decode quote true body).written
        = http.writeEvents quote stream ++ ["event: end\ndata: \x7b\x7d\n\n".toList]
    ∧ (http.writeEvents quote stream).length = stream.length
    ∧ (http.makeAnalysisHandler agent decode quote true body).body
        = (http.writeEvents quote stream).flatten ++ "event: end\ndata: \x7b\x7d\n\n".toList
    ∧ (http.makeAnalysisHandler agent decode quote true body).written.getLast?
        = some "event: end\ndata: \x7b\x7d\n\n".toList
    ∧ (http.makeAnalysisHandler agent decode quote true body).written.count
        "event: end\ndata: \x7b\x7d\n\n".toList = 1 := by
  have hend : "event: end\ndata: \x7b\x7d\n\n".toList = http.endEvent := by decide
  rw [handler_streams agent decode quote body r stream calls hd hr ha, hend]
  refine ⟨rfl, rfl, writeEvents_length quote stream, ?_, ?_, ?_⟩
  · simp [http.Outcome.body]
  · simp
  · have h0 : (http.writeEvents quote stream).count http.endEvent = 0 :=
      List.count_eq_zero.mpr fun hmem => writeEvents_ne_endEvent quote stream _ hmem rfl
    simp [List.count_append, h0]

/-- Witness of C11: the handler on the sample collaborators, whose stream ends with an
error fragment; three events and the terminal event. -/
theorem terminal_event_witness :
    (http.makeAnalysisHandler (stat_analyzer.BuildAnalysis sampleDeps) sampleDecode
        quotePlain true validBody).written.getLast?
      = some "event: end\ndata: \x7b\x7d\n\n".toList
    ∧ (http.makeAnalysisHandler (stat_analyzer.BuildAnalysis sampleDeps) sampleDecode
        quotePlain true validBody).written.count "event: end\ndata: \x7b\x7d\n\n".toList = 1 :=
  have h := terminal_event stat_analyzer.Call (stat_analyzer.BuildAnalysis sampleDeps)
    sampleDecode quotePlain validBody { UserID := 7 } _ _ rfl (by decide) rfl
  ⟨h.2.2.2.2.1, h.2.2.2.2.2⟩

set_option maxRecDepth 8000 in
/-- The bytes that the handler writes for the sample collaborators, evaluated. -/
theorem terminal_event_sample_eval :
    (http.makeAnalysisHandler (stat_analyzer.BuildAnalysis sampleDeps) sampleDecode
        quotePlain true validBody).body
      = ("event: analysis\ndata: \x7b\"id\":\"c1\",\"content\":\""
          ++ "\x7b\"segment\":\"2025-01-01T00:00:00.000000000Z\"\x7d\na\"\x7d\n\n"
          ++ "event: analysis\ndata: \x7b\"id\":\"c1\",\"content\":\""
          ++ "\x7b\"segment\":\"2025-01-01T00:00:00.000000001Z\"\x7d\nb\"\x7d\n\n"
          ++ "event: analysis\ndata: \x7b\"id\":\"\",\"content\":\""
          ++ "\x7b\"segment\":\"2025-01-01T00:00:00.000000002Z\"\x7d\n\",\"error\":\"reset\"\x7d\n\n"
          ++ "event: end\ndata: \x7b\x7d\n\n").toList := by
  decide

/-! ## The pipeline end to end -/

theorem relay_append (quote : Str → Str) (now : Nat → Str) (k : Nat)
    (a b : List llm.GenerateStreamResponse) :
    stat_analyzer.relay quote now k (a ++ b)
      = stat_analyzer.relay quote now k a ++ stat_analyzer.relay quote now (k + a.length) b := by
  induction a generalizing k with
  | nil => rfl
  | cons m rest ih =>
    have e : k + 1 + rest.length = k + (rest.length + 1) := by omega
    simp [stat_analyzer.relay, ih, e]

theorem relay_error_free (quote : Str → Str) (now : Nat → Str) (k : Nat)
    (stream : List llm.GenerateStreamResponse) (h : ∀ f ∈ stream, f.Error = none) :
    ∀ g ∈ stat_analyzer.relay quote now k stream, g.Error = none := by
  induction stream generalizing k with
  | nil => simp [stat_analyzer.relay]
  | cons m rest ih =>
    intro g hg
    simp only [stat_analyzer.relay, List.mem_cons] at hg
    rcases hg with rfl | hg
    · exact h m (by simp)
    · exact ih (k + 1) (fun f hf => h f (by simp [hf])) g hg

theorem relay_singleton (quote : Str → Str) (now : Nat → Str) (k : Nat)
    (msg : llm.GenerateStreamResponse) :
    stat_analyzer.relay quote now k [msg]
      = [{ ID := msg.ID,
           Content := stat_analyzer.envelope quote (now k) ++ "\n".toList ++ msg.Response,
           Error := msg.Error }] := by
  simp [stat_analyzer.relay, stat_analyzer.marshalMeta, stat_analyzer.envelope]

/-- The answer of `BuildAnalysis` when the lookup and the streamer succeed. -/
theorem BuildAnalysis_stream (deps : stat_analyzer.Deps)
    (req : stat_analyzer.BuildAnalysisRequest) (usr : user.User)
    (input : List llm.GenerateStreamResponse)
    (hu : deps.FindOne req.UserID = .ok usr)
    (hs : deps.Stream (stat_analyzer.genReq deps) = .ok input) :
    stat_analyzer.BuildAnalysis deps req
      = (.ok (stat_analyzer.relay deps.quote deps.now 0 input),
          [.FindOne req.UserID, .Stream (stat_analyzer.genReq deps)]) := by
  unfold stat_analyzer.BuildAnalysis
  rw [hu]
  simp only [hs]

/-- The answer of `BuildAnalysis` is an immediate error when the lookup fails or the
streamer refuses the request. -/
theorem BuildAnalysis_setup_error (deps : stat_analyzer.Deps)
    (req : stat_analyzer.BuildAnalysisRequest)
    (h : (∃ e, deps.FindOne req.UserID = .error e)
      ∨ ∃ e, deps.Stream (stat_analyzer.genReq deps) = .error e) :
    ∃ err calls, stat_analyzer.BuildAnalysis deps req = (.error err, calls) := by
  unfold stat_analyzer.BuildAnalysis
  cases hf : deps.FindOne req.UserID with
  | error e => exact ⟨_, _, rfl⟩
  | ok usr =>
    cases hs : deps.Stream (stat_analyzer.genReq deps) with
    | error e => exact ⟨_, _, rfl⟩
    | ok stream =>
      rcases h with ⟨e, he⟩ | ⟨e, he⟩
      · rw [hf] at he
        cases he
      · rw [hs] at he
        cases he

/-- C12, as stated, fails: a streamer sends one content fragment and then a fragment that
carries an error whose message is empty. The client gets two `analysis` events and the
terminal event, and the event of the error fragment has no `error` member: nothing
written contains an `error` key. -/
theorem midstream_error_without_field :
    (http.makeAnalysisHandler (stat_analyzer.BuildAnalysis emptyErrorDeps) sampleDecode
        quotePlain true validBody).written
      = [http.plainEvent quotePlain "c1".toList
            (stat_analyzer.envelope quotePlain (sampleNow 0) ++ "\na".toList),
         http.plainEvent quotePlain []
            (stat_analyzer.envelope quotePlain (sampleNow 1) ++ "\n".toList),
         http.endEvent]
    ∧ occursIn "\"error\"".toList
        (http.makeAnalysisHandler (stat_analyzer.BuildAnalysis emptyErrorDeps) sampleDecode
          quotePlain true validBody).body = false := by
  constructor <;> decide

/-- C12, amended. Let the request be valid and the lookup succeed, and let the streamer
send `K` fragments without error and then one fragment that carries an error whose
message is not empty. Then the handler writes, in this order, `K` `analysis` events
without `error` member, one for each of the `K` fragments with its enriched content, then
one `analysis` event whose `error` member is the message, then the terminal event, and
nothing else. -/
theorem midstream_error_end_to_end (deps : stat_analyzer.Deps)
    (decode : Str → Except Str http.AnalysisRequest) (body : Str)
    (r : http.AnalysisRequest) (usr : user.User)
    (contents : List llm.GenerateStreamResponse) (bad : llm.GenerateStreamResponse)
    (err : Str)
    (hd : decode body = .ok r) (hr : r.UserID ≠ uuid.Nil)
    (hu : deps.FindOne r.UserID = .ok usr)
    (hs : deps.Stream (stat_analyzer.genReq deps) = .ok (contents ++ [bad]))
    (hc : ∀ f ∈ contents, f.Error = none)
    (hb : bad.Error = some err) (hne : err ≠ []) :
    (http.makeAnalysisHandler (stat_analyzer.BuildAnalysis deps) decode deps.quote true
        body).written
      = (stat_analyzer.relay deps.quote deps.now 0 contents).map
            (fun f => http.plainEvent deps.quote f.ID f.Content)
          ++ [http.errorEvent deps.quote bad.ID
                (stat_analyzer.envelope deps.quote (deps.now contents.length)
                  ++ "\n".toList ++ bad.Response) err]
          ++ [http.endEvent]
    ∧ ((stat_analyzer.relay deps.quote deps.now 0 contents).map
        (fun f => http.plainEvent deps.quote f.ID f.Content)).length = contents.length := by
  have hB := BuildAnalysis_stream deps { UserID := r.UserID } usr (contents ++ [bad]) hu hs
  rw [handler_streams _ decode deps.quote body r _ _ hd hr hB]
  constructor
  · show http.writeEvents deps.quote _ ++ [http.endEvent] = _
    rw [relay_append, writeEvents_append,
      writeEvents_plain _ _ (relay_error_free _ _ _ _ hc), relay_singleton, Nat.zero_add,
      writeEvents_error deps.quote _ err hb hne]
  · simp [relay_length]

/-- Witness of the amended C12: the sample collaborators, two content fragments and the
failure `reset`. -/
theorem midstream_error_end_to_end_witness :
    (http.makeAnalysisHandler (stat_analyzer.BuildAnalysis sampleDeps) sampleDecode
        sampleDeps.quote true validBody).written
      = (stat_analyzer.relay sampleDeps.quote sampleDeps.now 0
            [{ ID := "c1".toList, Response := "a".toList, Error := none },
             { ID := "c1".toList, Response := "b".toList, Error := none }]).map
            (fun f => http.plainEvent sampleDeps.quote f.ID f.Content)
          ++ [http.errorEvent sampleDeps.quote []
                (stat_analyzer.envelope sampleDeps.quote (sampleDeps.now 2)
                  ++ "\n".toList ++ []) "reset".toList]
          ++ [http.endEvent] :=
  (midstream_error_end_to_end sampleDeps sampleDecode validBody { UserID := 7 }
    { ID := 7, Username := "ada".toList, SolanaWalletPublicKey := [], PasswordHash := [],
      Games := ["dota".toList] }
    [{ ID := "c1".toList, Response := "a".toList, Error := none },
     { ID := "c1".toList, Response := "b".toList, Error := none }]
    { ID := [], Response := [], Error := some "reset".toList } "reset".toList
    rfl (by decide) rfl rfl (by decide) rfl (by decide)).1

/-- C13. Setup errors are not streamed. When the request is valid and `BuildAnalysis`
returns an immediate error, the handler answers with status 500 and writes the one line
"analysis error" and nothing else: the body contains no `analysis` event and no terminal
event. This is what happens when the lookup fails and when the streamer refuses the
request. -/
theorem setup_error_not_streamed :
    (∀ (Call : Type)
        (agent : stat_analyzer.BuildAnalysisRequest →
          Except Str (List stat_analyzer.BuildAnalysisStreamResponse) × List Call)
        (decode : Str → Except Str http.AnalysisRequest) (quote : Str → Str) (body : Str)
        (r : http.AnalysisRequest) (err : Str) (calls : List Call),
        decode body = .ok r → r.UserID ≠ uuid.Nil →
        agent { UserID := r.UserID } = (.error err, calls) →
        (http.makeAnalysisHandler agent decode quote true body).status = 500
        ∧ (http.makeAnalysisHandler agent decode quote true body).written
            = ["analysis error\n".toList]
        ∧ occursIn "event: analysis".toList
            (http.makeAnalysisHandler agent decode quote true body).body = false
        ∧ occursIn "event: end".toList
            (http.makeAnalysisHandler agent decode quote true body).body = false)
    ∧ (∀ (deps : stat_analyzer.Deps) (decode : Str → Except Str http.AnalysisRequest)
        (quote : Str → Str) (body : Str) (r : http.AnalysisRequest),
        decode body = .ok r → r.UserID ≠ uuid.Nil →
        ((∃ e, deps.FindOne r.UserID = .error e)
          ∨ ∃ e, deps.Stream (stat_analyzer.genReq deps) = .error e) →
        (http.makeAnalysisHandler (stat_analyzer.BuildAnalysis deps) decode quote true
            body).status = 500
        ∧ (http.makeAnalysisHandler (stat_analyzer.BuildAnalysis deps) decode quote true
            body).written = ["analysis error\n".toList]) := by
  constructor
  · intro Call agent decode quote body r err calls hd hr ha
    have h1 : occursIn "event: analysis".toList ["analysis error\n".toList].flatten = false := by
      decide
    have h2 : occursIn "event: end".toList ["analysis error\n".toList].flatten = false := by
      decide
    rw [handler_setup_error agent decode quote body r err calls hd hr ha]
    exact ⟨rfl, rfl, h1, h2⟩
  · intro deps decode quote body r hd hr h
    obtain ⟨err, calls, ha⟩ := BuildAnalysis_setup_error deps { UserID := r.UserID } h
    rw [handler_setup_error _ decode quote body r err calls hd hr ha]
    exact ⟨rfl, rfl⟩

/-- Witness of C13: an upstream that answers the handshake with status 401, behind the
OpenAI adapter; and a user that the directory does not know. -/
theorem setup_error_not_streamed_witness :
    ((http.makeAnalysisHandler (stat_analyzer.BuildAnalysis handshakeFailureDeps)
          sampleDecode quotePlain true validBody).status = 500
      ∧ (http.makeAnalysisHandler (stat_analyzer.BuildAnalysis handshakeFailureDeps)
          sampleDecode quotePlain true validBody).written = ["analysis error\n".toList])
    ∧ ((http.makeAnalysisHandler (stat_analyzer.BuildAnalysis sampleDeps)
          (fun _ => .ok { UserID := 8 }) quotePlain true validBody).status = 500
      ∧ (http.makeAnalysisHandler (stat_analyzer.BuildAnalysis sampleDeps)
          (fun _ => .ok { UserID := 8 }) quotePlain true validBody).written
          = ["analysis error\n".toList]) :=
  ⟨setup_error_not_streamed.2 handshakeFailureDeps sampleDecode quotePlain validBody
      { UserID := 7 } rfl (by decide)
      (Or.inr ⟨"stream request failed: ".toList ++ "bad key".toList, rfl⟩),
    setup_error_not_streamed.2 sampleDeps (fun _ => .ok { UserID := 8 }) quotePlain validBody
      { UserID := 8 } rfl (by decide) (Or.inl ⟨"user not found".toList, rfl⟩)⟩

/-- C14, as stated, fails: with a clock that gives the same reading for both fragments,
the two contents of the round trip carry the same envelope. -/
theorem round_trip_same_envelope :
    (stat_analyzer.BuildAnalysis coarseClockDeps { UserID := 7 }).1
      = .ok [{ ID := [],
               Content := "\x7b\"segment\":\"2025-01-01T00:00:00Z\"\x7d".toList ++ "\na".toList,
               Error := none },
             { ID := [],
               Content := "\x7b\"segment\":\"2025-01-01T00:00:00Z\"\x7d".toList ++ "\nb".toList,
               Error := none }]
    ∧ stat_analyzer.envelope coarseClockDeps.quote (coarseClockDeps.now 0)
      = stat_analyzer.envelope coarseClockDeps.quote (coarseClockDeps.now 1) := by
  constructor <;> rfl

/-- C14, amended. When the lookup succeeds and the streamer sends the fragments `a` and
`b` and ends cleanly, `BuildAnalysis` answers with exactly two fragments, the first with
the content `a` and the second with the content `b`, each after a metadata envelope and a
newline, and the handler writes one `analysis` event for each, in this order, and the
terminal event. The envelope of a fragment is the JSON object of the clock reading taken
for it, so the two envelopes are distinct exactly when the two encoded readings are. -/
theorem round_trip_envelopes (deps : stat_analyzer.Deps)
    (decode : Str → Except Str http.AnalysisRequest) (body : Str)
    (r : http.AnalysisRequest) (usr : user.User)
    (hd : decode body = .ok r) (hr : r.UserID ≠ uuid.Nil)
    (hu : deps.FindOne r.UserID = .ok usr)
    (hs : deps.Stream (stat_analyzer.genReq deps)
      = .ok [{ ID := [], Response := "a".toList, Error := none },
             { ID := [], Response := "b".toList, Error := none }]) :
    (stat_analyzer.BuildAnalysis deps { UserID := r.UserID }).1
      = .ok [{ ID := [],
               Content := stat_analyzer.envelope deps.quote (deps.now 0) ++ "\n".toList
                 ++ "a".toList,
               Error := none },
             { ID := [],
               Content := stat_analyzer.envelope deps.quote (deps.now 1) ++ "\n".toList
                 ++ "b".toList,
               Error := none }]
    ∧ (http.makeAnalysisHandler (stat_analyzer.BuildAnalysis deps) decode deps.quote true
        body).written
      = [http.plainEvent deps.quote []
            (stat_analyzer.envelope deps.quote (deps.now 0) ++ "\n".toList ++ "a".toList),
         http.plainEvent deps.quote []
            (stat_analyzer.envelope deps.quote (deps.now 1) ++ "\n".toList ++ "b".toList),
         http.endEvent]
    ∧ (stat_analyzer.envelope deps.quote (deps.now 0)
          ≠ stat_analyzer.envelope deps.quote (deps.now 1)
        ↔ deps.quote (deps.now 0) ≠ deps.quote (deps.now 1)) := by
  have hB := BuildAnalysis_stream deps { UserID := r.UserID } usr _ hu hs
  have hrelay : stat_analyzer.relay deps.quote deps.now 0
      [{ ID := [], Response := "a".toList, Error := none },
       { ID := [], Response := "b".toList, Error := none }]
      = [{ ID := [],
           Content := stat_analyzer.envelope deps.quote (deps.now 0) ++ "\n".toList
             ++ "a".toList,
           Error := none },
         { ID := [],
           Content := stat_analyzer.envelope deps.quote (deps.now 1) ++ "\n".toList
             ++ "b".toList,
           Error := none }] := by
    simp [stat_analyzer.relay, stat_analyzer.marshalMeta, stat_analyzer.envelope]
  refine ⟨?_, ?_, ?_⟩
  · rw [hB, hrelay]
  · rw [handler_streams _ decode deps.quote body r _ _ hd hr hB, hrelay]
    show http.writeEvents deps.quote _ ++ [http.endEvent] = _
    rw [writeEvents_plain _ _ (by simp)]
    rfl
  · unfold stat_analyzer.envelope
    simp

/-- Witness of the amended C14: the round trip with a clock whose readings differ. -/
theorem round_trip_envelopes_witness :
    (stat_analyzer.BuildAnalysis roundTripDeps { UserID := 7 }).1
      = .ok [{ ID := [],
               Content := stat_analyzer.envelope quotePlain (sampleNow 0) ++ "\n".toList
                 ++ "a".toList,
               Error := none },
             { ID := [],
               Content := stat_analyzer.envelope quotePlain (sampleNow 1) ++ "\n".toList
                 ++ "b".toList,
               Error := none }]
    ∧ stat_analyzer.envelope quotePlain (sampleNow 0)
        ≠ stat_analyzer.envelope quotePlain (sampleNow 1) :=
  have h := round_trip_envelopes roundTripDeps sampleDecode validBody { UserID := 7 }
    { ID := 7, Username := "ada".toList, SolanaWalletPublicKey := [], PasswordHash := [],
      Games := ["dota".toList] } rfl (by decide) rfl rfl
  ⟨h.1, h.2.2.mpr (by decide)⟩

/-! ## Cancellation at the boundary -/

/-- C15, as stated, fails: the request is cancelled after one of two fragments has been
forwarded and the stream still delivers the second one; the handler writes the event of
the second fragment and the terminal event all the same. -/
theorem cancelled_request_still_written :
    (http.HandlerFunc stubAgent sampleDecode quotePlain true
        { Body := validBody, Context := some 1 }).written
      = [http.plainEvent quotePlain [] "a".toList,
         http.plainEvent quotePlain [] "b".toList,
         http.endEvent] := by
  decide

/-- C15, amended. The handler does not observe the cancellation of the inbound request.
It passes the context to `BuildAnalysis`; when that returns a stream, the handler writes
one `analysis` event for every fragment the stream delivers, in order, and then the
terminal event, whatever the context: cancelled after any number of fragments, or never.
Two contexts for which the agent answers alike give the same outcome. -/
theorem cancellation_not_observed (Call : Type)
    (agent : Option Nat → stat_analyzer.BuildAnalysisRequest →
      Except Str (List stat_analyzer.BuildAnalysisStreamResponse) × List Call)
    (decode : Str → Except Str http.AnalysisRequest) (quote : Str → Str) (body : Str)
    (ctx : Option Nat) (r : http.AnalysisRequest)
    (stream : List stat_analyzer.BuildAnalysisStreamResponse) (calls : List Call)
    (hd : decode body = .ok r) (hr : r.UserID ≠ uuid.Nil)
    (ha : agent ctx { UserID := r.UserID } = (.ok stream, calls)) :
    (http.HandlerFunc agent decode quote true { Body := body, Context := ctx }).written
      = http.writeEvents quote stream ++ [http.endEvent]
    ∧ (http.writeEvents quote stream).length = stream.length
    ∧ ∀ (ctx2 : Option Nat) (flusher : Bool), agent ctx2 = agent ctx →
        http.HandlerFunc agent decode quote flusher { Body := body, Context := ctx2 }
          = http.HandlerFunc agent decode quote flusher { Body := body, Context := ctx } := by
  refine ⟨?_, writeEvents_length quote stream, ?_⟩
  · show (http.makeAnalysisHandler (agent ctx) decode quote true body).written = _
    rw [handler_streams (agent ctx) decode quote body r stream calls hd hr ha]
  · intro ctx2 flusher h
    show http.makeAnalysisHandler (agent ctx2) decode quote flusher body
      = http.makeAnalysisHandler (agent ctx) decode quote flusher body
    rw [h]

/-- Witness of the amended C15: the stub agent and a request cancelled after one
fragment; both events are written. -/
theorem cancellation_not_observed_witness :
    (http.HandlerFunc stubAgent sampleDecode quotePlain true
        { Body := validBody, Context := some 1 }).written
      = http.writeEvents quotePlain
          [{ ID := [], Content := "a".toList, Error := none },
           { ID := [], Content := "b".toList, Error := none }] ++ [http.endEvent]
    ∧ (http.writeEvents quotePlain
          [{ ID := [], Content := "a".toList, Error := none },
           { ID := [], Content := "b".toList, Error := none }]).length = 2 :=
  have h := cancellation_not_observed Unit stubAgent sampleDecode quotePlain validBody
    (some 1) { UserID := 7 } _ [] rfl (by decide) rfl
  ⟨h.1, h.2.1⟩

/-! ## The Claude transcript, text by text -/

theorem claude_historyText_eq (history : List llm.Conversation) :
    claude.historyText history
      = (history.map fun conv =>
          "\n\nHuman: ".toList ++ conv.Request ++ "\n\nAssistant: ".toList
            ++ conv.Response).flatten := by
  induction history with
  | nil => rfl
  | cons conv rest ih => simp [claude.historyText, ih]

/-- C16. The Claude transcript keeps the texts and the order of the history. The prompt
built by `ClaudeClient.Stream` is `P`, then the blocks `H_1`, ..., `H_n` of the history
pairs in their given order, each pair once, then "\n\nHuman: ", the user prompt and
"\n\nAssistant:"; `P` is "\n\nHuman: " and the system prompt when that is not empty and
is empty otherwise, and `H_i` is "\n\nHuman: ", the request of the pair,
"\n\nAssistant: " and its response. -/
theorem claude_prompt_content (request : llm.GenerateRequest) :
    claude.buildPrompt request
      = (if request.Prompt.System ≠ [] then "\n\nHuman: ".toList ++ request.Prompt.System
          else [])
        ++ (request.History.map fun conv =>
              "\n\nHuman: ".toList ++ conv.Request ++ "\n\nAssistant: ".toList
                ++ conv.Response).flatten
        ++ "\n\nHuman: ".toList ++ request.Prompt.User ++ "\n\nAssistant:".toList := by
  rw [claude_buildPrompt_eq, claude_historyText_eq]
  simp only [List.append_assoc]

/-- The prompt of a request without system prompt, evaluated. -/
theorem claude_prompt_content_sample_eval :
    claude.buildPrompt { sampleDialogue with Prompt := { System := [], User := "Go".toList } }
      = ("\n\nHuman: Hello\n\nAssistant: Hi!\n\nHuman: Rank me\n\nAssistant: Gold"
          ++ "\n\nHuman: Go\n\nAssistant:").toList := by
  decide

/-! ## Lines without data marker, lines with a malformed marker, and the end of input -/

theorem readLoop_skip (onLine : Str → Step) (fin : ReadEnd) (ls : List Str) (l : Str)
    (rest : List Str) (h : onLine l = .next []) :
    readLoop onLine fin (ls ++ l :: rest) = readLoop onLine fin (ls ++ rest) := by
  induction ls with
  | nil => simp [readLoop, h]
  | cons x ls ih =>
    cases hs : onLine x with
    | next fs => simp [readLoop, hs, ih]
    | stop fs => simp [readLoop, hs]

theorem openai_onLine_other (unmarshal : Str → Except Str openai.Event) (line : Str)
    (h : strings.HasPrefix (strings.TrimSpace line) "data:".toList = false) :
    openai.onLine unmarshal line = .next [] := by
  unfold openai.onLine
  simp only [h, Bool.not_false, Bool.or_true, if_true]

theorem claude_onLine_other (unmarshal : Str → Except Str claude.Event) (line : Str)
    (h : strings.HasPrefix (strings.TrimSpace line) "data:".toList = false) :
    claude.onLine unmarshal line = .next [] := by
  unfold claude.onLine
  simp only [h, Bool.not_false, if_true]

/-- C17. Only lines with the data marker are considered. In both adapters a line whose
trimmed text does not start with `data:` sends no fragment and lets the loop read on;
and a body with such a line, terminated by its newline, after any number of complete
lines and before anything else, gives the same fragments as the body without it: the
line can be inserted or removed at any start of a line. -/
theorem non_data_lines_ignored :
    (∀ (uo : Str → Except Str openai.Event) (line : Str),
        strings.HasPrefix (strings.TrimSpace line) "data:".toList = false →
        openai.onLine uo line = .next [])
    ∧ (∀ (uc : Str → Except Str claude.Event) (line : Str),
        strings.HasPrefix (strings.TrimSpace line) "data:".toList = false →
        claude.onLine uc line = .next [])
    ∧ (∀ (uo : Str → Except Str openai.Event) (pre : List Str) (line rest : Str)
        (fin : ReadEnd), '\n' ∉ line →
        strings.HasPrefix (strings.TrimSpace (line ++ ['\n'])) "data:".toList = false →
        openai.readerLoop uo (joinLines pre ++ (line ++ '\n' :: rest)) fin
          = openai.readerLoop uo (joinLines pre ++ rest) fin)
    ∧ (∀ (uc : Str → Except Str claude.Event) (pre : List Str) (line rest : Str)
        (fin : ReadEnd), '\n' ∉ line →
        strings.HasPrefix (strings.TrimSpace (line ++ ['\n'])) "data:".toList = false →
        claude.readerLoop uc (joinLines pre ++ (line ++ '\n' :: rest)) fin
          = claude.readerLoop uc (joinLines pre ++ rest) fin) := by
  refine ⟨openai_onLine_other, claude_onLine_other, ?_, ?_⟩
  · intro uo pre line rest fin hline h
    unfold openai.readerLoop
    rw [readLines_body pre line rest hline, readLines_joinLines_append,
      readLoop_skip _ fin _ _ _ (openai_onLine_other uo _ h)]
  · intro uc pre line rest fin hline h
    unfold claude.readerLoop
    rw [readLines_body pre line rest hline, readLines_joinLines_append,
      readLoop_skip _ fin _ _ _ (claude_onLine_other uc _ h)]

/-- Witness of C17: an `event:` line between two data lines of the OpenAI adapter, and a
blank line in front of the body of the Claude adapter. -/
theorem non_data_lines_ignored_witness :
    openai.readerLoop sampleOpenAI
        (joinLines sampleLines ++ ("event: delta".toList ++ '\n' :: joinLines sampleLines))
        .eof
      = openai.readerLoop sampleOpenAI (joinLines sampleLines ++ joinLines sampleLines) .eof
    ∧ claude.readerLoop sampleClaude
        (joinLines [] ++ (" \r".toList ++ '\n' :: joinLines sampleLines)) .eof
      = claude.readerLoop sampleClaude (joinLines [] ++ joinLines sampleLines) .eof :=
  ⟨non_data_lines_ignored.2.2.1 sampleOpenAI sampleLines "event: delta".toList
      (joinLines sampleLines) .eof (by decide) (by decide),
    non_data_lines_ignored.2.2.2 sampleClaude [] " \r".toList (joinLines sampleLines) .eof
      (by decide) (by decide)⟩

/-- The first body of the witness of C17, evaluated: the two data lines before and the
two after the `event:` line each send the one fragment of the OpenAI payload. -/
theorem non_data_lines_sample_eval :
    openai.readerLoop sampleOpenAI
        (joinLines sampleLines ++ ("event: delta".toList ++ '\n' :: joinLines sampleLines))
        .eof
      = [{ ID := "c1".toList, Response := "Hi".toList, Error := none },
         { ID := "c1".toList, Response := "Hi".toList, Error := none }] := by
  decide

theorem TrimPrefix_of_not_HasPrefix (s pre : Str) (h : strings.HasPrefix s pre = false) :
    strings.TrimPrefix s pre = s := by
  unfold strings.TrimPrefix
  simp [h]

theorem HasPrefix_data_ne_sentinel (s : Str)
    (h : strings.HasPrefix s "data:".toList = true) : s ≠ "[DONE]".toList := by
  intro e
  rw [e] at h
  exact absurd h (by decide)

/-- C18. The marker and the payload prefix do not match. In both adapters, when the
trimmed line starts with `data:` but not with `data: `, the payload is the whole trimmed
line, marker included; it is not the sentinel; and when the decoder rejects it, as a
JSON decoder rejects every text that starts with `data:`, the turn sends one error
fragment and returns. So with such a decoder the whole output for complete lines that do
not end the stream, followed by such a line and anything else, is the fragments of those
lines and then exactly one error fragment. -/
theorem marker_payload_mismatch :
    (∀ (line : Str),
        strings.HasPrefix (strings.TrimSpace line) "data:".toList = true →
        strings.HasPrefix (strings.TrimSpace line) "data: ".toList = false →
        strings.TrimPrefix (strings.TrimSpace line) "data: ".toList = strings.TrimSpace line
        ∧ strings.TrimPrefix (strings.TrimSpace line) "data: ".toList ≠ "[DONE]".toList)
    ∧ (∀ (uo : Str → Except Str openai.Event) (line err : Str),
        strings.HasPrefix (strings.TrimSpace line) "data:".toList = true →
        strings.HasPrefix (strings.TrimSpace line) "data: ".toList = false →
        uo (strings.TrimSpace line) = .error err →
        openai.onLine uo line
          = .stop [{ ID := [], Response := [],
                     Error := some ("invalid stream response: ".toList ++ err) }])
    ∧ (∀ (uc : Str → Except Str claude.Event) (line err : Str),
        strings.HasPrefix (strings.TrimSpace line) "data:".toList = true →
        strings.HasPrefix (strings.TrimSpace line) "data: ".toList = false →
        uc (strings.TrimSpace line) = .error err →
        claude.onLine uc line
          = .stop [{ ID := [], Response := [],
                     Error := some ("Claude invalid stream: ".toList ++ err) }])
    ∧ (∀ (uo : Str → Except Str openai.Event) (pre : List Str) (line rest : Str)
        (fin : ReadEnd),
        (∀ p, strings.HasPrefix p "data:".toList = true → ∃ err, uo p = .error err) →
        (∀ l ∈ readLines (joinLines pre), (openai.onLine uo l).stops = false) →
        '\n' ∉ line →
        strings.HasPrefix (strings.TrimSpace (line ++ ['\n'])) "data:".toList = true →
        strings.HasPrefix (strings.TrimSpace (line ++ ['\n'])) "data: ".toList = false →
        ∃ err, openai.readerLoop uo (joinLines pre ++ (line ++ '\n' :: rest)) fin
          = openai.readerLoop uo (joinLines pre) .eof
              ++ [{ ID := [], Response := [],
                    Error := some ("invalid stream response: ".toList ++ err) }])
    ∧ (∀ (uc : Str → Except Str claude.Event) (pre : List Str) (line rest : Str)
        (fin : ReadEnd),
        (∀ p, strings.HasPrefix p "data:".toList = true → ∃ err, uc p = .error err) →
        (∀ l ∈ readLines (joinLines pre), (claude.onLine uc l).stops = false) →
        '\n' ∉ line →
        strings.HasPrefix (strings.TrimSpace (line ++ ['\n'])) "data:".toList = true →
        strings.HasPrefix (strings.TrimSpace (line ++ ['\n'])) "data: ".toList = false →
        ∃ err, claude.readerLoop uc (joinLines pre ++ (line ++ '\n' :: rest)) fin
          = claude.readerLoop uc (joinLines pre) .eof
              ++ [{ ID := [], Response := [],
                    Error := some ("Claude invalid stream: ".toList ++ err) }]) := by
  have hpay : ∀ (line : Str),
      strings.HasPrefix (strings.TrimSpace line) "data:".toList = true →
      strings.HasPrefix (strings.TrimSpace line) "data: ".toList = false →
      strings.TrimPrefix (strings.TrimSpace line) "data: ".toList = strings.TrimSpace line
      ∧ strings.TrimPrefix (strings.TrimSpace line) "data: ".toList ≠ "[DONE]".toList := by
    intro line h1 h2
    have e := TrimPrefix_of_not_HasPrefix _ _ h2
    exact ⟨e, by rw [e]; exact HasPrefix_data_ne_sentinel _ h1⟩
  have hO : ∀ (uo : Str → Except Str openai.Event) (line err : Str),
      strings.HasPrefix (strings.TrimSpace line) "data:".toList = true →
      strings.HasPrefix (strings.TrimSpace line) "data: ".toList = false →
      uo (strings.TrimSpace line) = .error err →
      openai.onLine uo line
        = .stop [{ ID := [], Response := [],
                   Error := some ("invalid stream response: ".toList ++ err) }] := by
    intro uo line err h1 h2 he
    rw [openai_onLine_data uo line h1 (hpay line h1 h2).2, (hpay line h1 h2).1, he]
  have hC : ∀ (uc : Str → Except Str claude.Event) (line err : Str),
      strings.HasPrefix (strings.TrimSpace line) "data:".toList = true →
      strings.HasPrefix (strings.TrimSpace line) "data: ".toList = false →
      uc (strings.TrimSpace line) = .error err →
      claude.onLine uc line
        = .stop [{ ID := [], Response := [],
                   Error := some ("Claude invalid stream: ".toList ++ err) }] := by
    intro uc line err h1 h2 he
    rw [claude_onLine_data uc line h1 (hpay line h1 h2).2, (hpay line h1 h2).1, he]
  refine ⟨hpay, hO, hC, ?_, ?_⟩
  · intro uo pre line rest fin hjson hpre hline h1 h2
    obtain ⟨err, he⟩ := hjson _ h1
    refine ⟨err, ?_⟩
    unfold openai.readerLoop
    rw [readLines_body pre line rest hline, readLoop_line _ fin _ _ _ hpre,
      hO uo _ err h1 h2 he]
  · intro uc pre line rest fin hjson hpre hline h1 h2
    obtain ⟨err, he⟩ := hjson _ h1
    refine ⟨err, ?_⟩
    unfold claude.readerLoop
    rw [readLines_body pre line rest hline, readLoop_line _ fin _ _ _ hpre,
      hC uc _ err h1 h2 he]

/-- The sample decoders reject every payload that starts with `data:`. -/
theorem sample_decoders_reject_marker (p : Str)
    (h : strings.HasPrefix p "data:".toList = true) :
    sampleOpenAI p = .error "invalid character".toList
    ∧ sampleClaude p = .error "invalid character".toList := by
  have h1 : p ≠ openaiPayload := by
    intro e
    rw [e] at h
    exact absurd h (by decide)
  have h2 : p ≠ claudePayload := by
    intro e
    rw [e] at h
    exact absurd h (by decide)
  have h3 : p ≠ "\x7b\x7d".toList := by
    intro e
    rw [e] at h
    exact absurd h (by decide)
  simp only [sampleOpenAI, sampleClaude, h1, h2, h3, if_false, and_self]

/-- Witness of C18: the line `data:[DONE]` after two data lines and before two more, in
the OpenAI adapter; the turn for the bare `data:` in the Claude adapter. -/
theorem marker_payload_mismatch_witness :
    (∃ err, openai.readerLoop sampleOpenAI
        (joinLines sampleLines ++ ("data:[DONE]".toList ++ '\n' :: joinLines sampleLines))
        .eof
      = openai.readerLoop sampleOpenAI (joinLines sampleLines) .eof
          ++ [{ ID := [], Response := [],
                Error := some ("invalid stream response: ".toList ++ err) }])
    ∧ claude.onLine sampleClaude "data: \n".toList
      = .stop [{ ID := [], Response := [],
                 Error := some ("Claude invalid stream: ".toList
                   ++ "invalid character".toList) }] :=
  ⟨marker_payload_mismatch.2.2.2.1 sampleOpenAI sampleLines "data:[DONE]".toList
      (joinLines sampleLines) .eof
      (fun p hp => ⟨_, (sample_decoders_reject_marker p hp).1⟩)
      (by decide) (by decide) (by decide) (by decide),
    marker_payload_mismatch.2.2.1 sampleClaude "data: \n".toList "invalid character".toList
      (by decide) (by decide) rfl⟩

/-- The first body of the witness of C18, evaluated. -/
theorem marker_payload_sample_eval :
    openai.readerLoop sampleOpenAI
        (joinLines sampleLines ++ ("data:[DONE]".toList ++ '\n' :: joinLines sampleLines))
        .eof
      = [{ ID := "c1".toList, Response := "Hi".toList, Error := none },
         { ID := [], Response := [],
           Error := some "invalid stream response: invalid character".toList }] := by
  decide

theorem readLoop_eof_error_free (onLine : Str → Step)
    (hnext : ∀ l fs, onLine l = .next fs → ∀ f ∈ fs, f.Error = none ∧ f.Response ≠ [])
    (ls : List Str) (h : ∀ l ∈ ls, (onLine l).stops = false) :
    ∀ f ∈ readLoop onLine .eof ls, f.Error = none := by
  induction ls with
  | nil => simp [readLoop]
  | cons l ls ih =>
    have hl := h l (by simp)
    have ih := ih (fun x hx => h x (by simp [hx]))
    intro f hf
    cases hs : onLine l with
    | stop fs => simp [hs, Step.stops] at hl
    | next fs =>
      simp only [readLoop, hs, List.mem_append] at hf
      rcases hf with hf | hf
      · exact (hnext l fs hs f hf).1
      · exact ih f hf

/-- C19. End of input in both adapters. What stands after the last newline of the body
is not parsed: for complete lines `pre` and a tail `t` without newline, whatever it is,
the fragments for the body with the tail are those for the body without it, however the
read ends. When the read ends with end-of-input and no line ended the stream before, no
fragment sent carries an error. -/
theorem unterminated_tail_discarded :
    (∀ (uo : Str → Except Str openai.Event) (pre : List Str) (t : Str) (fin : ReadEnd),
        '\n' ∉ t →
        openai.readerLoop uo (joinLines pre ++ t) fin
          = openai.readerLoop uo (joinLines pre) fin)
    ∧ (∀ (uc : Str → Except Str claude.Event) (pre : List Str) (t : Str) (fin : ReadEnd),
        '\n' ∉ t →
        claude.readerLoop uc (joinLines pre ++ t) fin
          = claude.readerLoop uc (joinLines pre) fin)
    ∧ (∀ (uo : Str → Except Str openai.Event) (pre : List Str) (t : Str),
        '\n' ∉ t →
        (∀ l ∈ readLines (joinLines pre), (openai.onLine uo l).stops = false) →
        ∀ f ∈ openai.readerLoop uo (joinLines pre ++ t) .eof, f.Error = none)
    ∧ (∀ (uc : Str → Except Str claude.Event) (pre : List Str) (t : Str),
        '\n' ∉ t →
        (∀ l ∈ readLines (joinLines pre), (claude.onLine uc l).stops = false) →
        ∀ f ∈ claude.readerLoop uc (joinLines pre ++ t) .eof, f.Error = none) := by
  have hlines : ∀ (pre : List Str) (t : Str), '\n' ∉ t →
      readLines (joinLines pre ++ t) = readLines (joinLines pre) := by
    intro pre t ht
    rw [readLines_joinLines_append, readLines_no_newline t ht, List.append_nil]
  refine ⟨?_, ?_, ?_, ?_⟩
  · intro uo pre t fin ht
    unfold openai.readerLoop
    rw [hlines pre t ht]
  · intro uc pre t fin ht
    unfold claude.readerLoop
    rw [hlines pre t ht]
  · intro uo pre t ht hpre
    unfold openai.readerLoop
    rw [hlines pre t ht]
    exact readLoop_eof_error_free _ (openai_onLine_next uo) _ hpre
  · intro uc pre t ht hpre
    unfold claude.readerLoop
    rw [hlines pre t ht]
    exact readLoop_eof_error_free _ (claude_onLine_next uc) _ hpre

/-- Witness of C19: after two complete data lines, a data line with content that lacks
its newline; it is dropped. -/
theorem unterminated_tail_discarded_witness :
    openai.readerLoop sampleOpenAI (joinLines sampleLines ++ ("data: ".toList ++ openaiPayload))
        .eof
      = openai.readerLoop sampleOpenAI (joinLines sampleLines) .eof
    ∧ claude.readerLoop sampleClaude (joinLines sampleLines ++ ("data: ".toList ++ claudePayload))
        .eof
      = claude.readerLoop sampleClaude (joinLines sampleLines) .eof :=
  ⟨unterminated_tail_discarded.1 sampleOpenAI sampleLines ("data: ".toList ++ openaiPayload)
      .eof (by decide),
    unterminated_tail_discarded.2.1 sampleClaude sampleLines
      ("data: ".toList ++ claudePayload) .eof (by decide)⟩

/-- The first body of the witness of C19, evaluated, next to the same body with the
newline: one fragment without it, two with it. -/
theorem unterminated_tail_sample_eval :
    openai.readerLoop sampleOpenAI (joinLines sampleLines ++ ("data: ".toList ++ openaiPayload))
        .eof
      = [{ ID := "c1".toList, Response := "Hi".toList, Error := none }]
    ∧ openai.readerLoop sampleOpenAI
        (joinLines sampleLines ++ ("data: ".toList ++ openaiPayload ++ ['\n'])) .eof
      = [{ ID := "c1".toList, Response := "Hi".toList, Error := none },
         { ID := "c1".toList, Response := "Hi".toList, Error := none }] := by
  constructor <;> decide

/-! ## What goes upstream -/

/-- C20. The request sent upstream does not depend on the entity. Whenever the lookup
succeeds, the one request that `BuildAnalysis` passes to the streamer has the system and
the user prompt of the prompt source and an empty history, whatever the identifier and
the record found. So two runs with the same prompt source pass the same request,
whatever their directories, identifiers and records. -/
theorem prompt_independent_of_entity :
    (∀ (deps : stat_analyzer.Deps) (req : stat_analyzer.BuildAnalysisRequest)
        (usr : user.User), deps.FindOne req.UserID = .ok usr →
        stat_analyzer.streamRequests (stat_analyzer.BuildAnalysis deps req).2
          = [{ Prompt := { System := deps.GetSystemPrompt, User := deps.GetUserPrompt },
               History := [] }])
    ∧ (∀ (deps deps2 : stat_analyzer.Deps) (req req2 : stat_analyzer.BuildAnalysisRequest)
        (usr usr2 : user.User),
        deps.GetSystemPrompt = deps2.GetSystemPrompt →
        deps.GetUserPrompt = deps2.GetUserPrompt →
        deps.FindOne req.UserID = .ok usr → deps2.FindOne req2.UserID = .ok usr2 →
        stat_analyzer.streamRequests (stat_analyzer.BuildAnalysis deps req).2
          = stat_analyzer.streamRequests (stat_analyzer.BuildAnalysis deps2 req2).2) := by
  have h1 : ∀ (deps : stat_analyzer.Deps) (req : stat_analyzer.BuildAnalysisRequest)
      (usr : user.User), deps.FindOne req.UserID = .ok usr →
      stat_analyzer.streamRequests (stat_analyzer.BuildAnalysis deps req).2
        = [{ Prompt := { System := deps.GetSystemPrompt, User := deps.GetUserPrompt },
             History := [] }] := by
    intro deps req usr hu
    unfold stat_analyzer.BuildAnalysis
    rw [hu]
    cases hs : deps.Stream (stat_analyzer.genReq deps) <;> rfl
  refine ⟨h1, ?_⟩
  intro deps deps2 req req2 usr usr2 hsys husr hu hu2
  rw [h1 deps req usr hu, h1 deps2 req2 usr2 hu2, hsys, husr]

/-- Witness of C20: user 7 of one directory and user 9 of another, with other games. -/
theorem prompt_independent_of_entity_witness :
    stat_analyzer.streamRequests
        (stat_analyzer.BuildAnalysis sampleDeps { UserID := 7 }).2
      = stat_analyzer.streamRequests
          (stat_analyzer.BuildAnalysis otherDirectoryDeps { UserID := 9 }).2 :=
  prompt_independent_of_entity.2 sampleDeps otherDirectoryDeps { UserID := 7 }
    { UserID := 9 }
    { ID := 7, Username := "ada".toList, SolanaWalletPublicKey := [], PasswordHash := [],
      Games := ["dota".toList] }
    { ID := 9, Username := "bob".toList, SolanaWalletPublicKey := "w9".toList,
      PasswordHash := [], Games := ["cs2".toList, "lol".toList] }
    rfl rfl rfl rfl

/-- The request of the witness of C20, evaluated. -/
theorem prompt_sample_eval :
    stat_analyzer.streamRequests
        (stat_analyzer.BuildAnalysis otherDirectoryDeps { UserID := 9 }).2
      = [{ Prompt := { System := "You are a coach.".toList,
                       User := "Analyse the player.".toList },
           History := [] }] := by
  decide

/-! ## Divisions of the derived metrics -/

theorem length_extractEngagementScoresFrom (i : Nat) (games : List Str) :
    (stat_analyzer.extractEngagementScoresFrom i games).length = games.length := by
  induction games generalizing i with
  | nil => rfl
  | cons g rest ih => simp [stat_analyzer.extractEngagementScoresFrom, ih]

/-- The divisor of the kill/death ratio is at least one for every user, so that division
has a value. -/
theorem killDeathDivisor_pos (u : user.User) :
    1 ≤ stat_analyzer.killDeathDivisor u
    ∧ (stat_analyzer.deriveMetrics u).killDeathRatio
        = some ((stat_analyzer.countTotalKills u.Games : ℚ) / stat_analyzer.killDeathDivisor u) := by
  have h1 : (1 : ℚ) ≤ stat_analyzer.killDeathDivisor u := le_max_left _ _
  have h0 : stat_analyzer.killDeathDivisor u ≠ 0 := by
    intro e
    rw [e] at h1
    exact absurd h1 (by norm_num)
  refine ⟨h1, ?_⟩
  simp [stat_analyzer.deriveMetrics, fdiv, h0]

/-- The divisor of `variance` over the scores of a user is the number of games, and the
divisions of `variance` have no value exactly when the user has no game. -/
theorem variance_divisor_zero_iff (u : user.User) :
    stat_analyzer.varianceDivisor (stat_analyzer.extractEngagementScores u.Games)
      = (u.Games.length : ℚ)
    ∧ ((stat_analyzer.deriveMetrics u).engagementConsistency = none ↔ u.Games = []) := by
  have hlen : stat_analyzer.varianceDivisor (stat_analyzer.extractEngagementScores u.Games)
      = (u.Games.length : ℚ) := by
    simp [stat_analyzer.varianceDivisor, stat_analyzer.extractEngagementScores,
      length_extractEngagementScoresFrom]
  refine ⟨hlen, ?_⟩
  simp only [stat_analyzer.deriveMetrics, stat_analyzer.variance, hlen]
  cases hg : u.Games with
  | nil => simp [fdiv]
  | cons g rest =>
    have hne : (rest.length : ℚ) + 1 ≠ 0 := by positivity
    simp [fdiv, hne]

/-- C21 at the user that `Register` stores, whose list of games is empty: the divisor of
the kill/death ratio is one and that ratio is zero, but there is no engagement score, the
divisor of both divisions of `variance` is zero, and the engagement consistency has no
value. -/
theorem deriveMetrics_new_user :
    newlyRegistered.Games = []
    ∧ stat_analyzer.killDeathDivisor newlyRegistered = 1
    ∧ (stat_analyzer.deriveMetrics newlyRegistered).killDeathRatio = some 0
    ∧ stat_analyzer.extractEngagementScores newlyRegistered.Games = []
    ∧ stat_analyzer.varianceDivisor
        (stat_analyzer.extractEngagementScores newlyRegistered.Games) = 0
    ∧ stat_analyzer.variance (stat_analyzer.extractEngagementScores newlyRegistered.Games)
        = none
    ∧ (stat_analyzer.deriveMetrics newlyRegistered).engagementConsistency = none := by
  refine ⟨rfl, ?_, ?_, rfl, ?_, ?_, ?_⟩
  · simp [stat_analyzer.killDeathDivisor, stat_analyzer.countTotalDeaths, newlyRegistered,
      user.Register]
  · simp [stat_analyzer.deriveMetrics, stat_analyzer.killDeathDivisor,
      stat_analyzer.countTotalDeaths, stat_analyzer.countTotalKills, newlyRegistered,
      user.Register, fdiv]
  · simp [stat_analyzer.varianceDivisor, stat_analyzer.extractEngagementScores,
      stat_analyzer.extractEngagementScoresFrom, newlyRegistered, user.Register]
  · simp [stat_analyzer.variance, stat_analyzer.varianceDivisor,
      stat_analyzer.extractEngagementScores, stat_analyzer.extractEngagementScoresFrom,
      newlyRegistered, user.Register, fdiv]
  · simp [stat_analyzer.deriveMetrics, stat_analyzer.variance, stat_analyzer.varianceDivisor,
      stat_analyzer.extractEngagementScores, stat_analyzer.extractEngagementScoresFrom,
      newlyRegistered, user.Register, fdiv]

/-- The metrics of a user with two games, for contrast: the scores are 1 and 2, their
mean is 3/2 and their variance 1/4; the kill/death ratio is 10/6. -/
theorem deriveMetrics_two_games_eval :
    stat_analyzer.deriveMetrics
        { ID := 9, Username := "bob".toList, SolanaWalletPublicKey := [], PasswordHash := [],
          Games := ["cs2".toList, "lol".toList] }
      = { killDeathRatio := some (5 / 3), engagementConsistency := some (1 / 4),
          synergyCluster := "Alpha-Synergy".toList } := by
  simp [stat_analyzer.deriveMetrics, stat_analyzer.variance, stat_analyzer.varianceDivisor,
    stat_analyzer.extractEngagementScores, stat_analyzer.extractEngagementScoresFrom,
    stat_analyzer.killDeathDivisor, stat_analyzer.countTotalDeaths,
    stat_analyzer.countTotalKills, stat_analyzer.clusterRoleSynergy, fdiv]
  norm_num

/-! ## Validation at the boundary, on the first JSON value of the body -/

set_option maxRecDepth 8000 in
/-- The sample scanner on the bodies used below. -/
theorem sampleReadValue_eval :
    sampleReadValue trailingGarbageBody = .ok (validBody, " trailing garbage".toList)
    ∧ sampleReadValue validBody = .ok (validBody, [])
    ∧ sampleReadValue " \x7b\x7d\n".toList = .ok ("\x7b\x7d".toList, "\n".toList)
    ∧ sampleReadValue "\x7b\"subjectID\"".toList = .error "unexpected EOF".toList
    ∧ sampleReadValue "not json".toList = .error "invalid character".toList := by
  refine ⟨?_, ?_, ?_, ?_, ?_⟩ <;> rfl

set_option maxRecDepth 8000 in
/-- C9, as stated, fails: the body is the valid request for user 7 followed by more text,
so it is not a JSON document, yet the decoder reads the object in front and stops; the
handler answers 200, invokes `BuildAnalysis` for user 7, and the directory and the
streamer are called. -/
theorem trailing_garbage_accepted :
    json.Valid sampleReadValue trailingGarbageBody = false
    ∧ json.Decode sampleReadValue sampleDecode trailingGarbageBody = .ok { UserID := 7 }
    ∧ (http.makeAnalysisHandler (stat_analyzer.BuildAnalysis sampleDeps)
        (json.Decode sampleReadValue sampleDecode) quotePlain true
        trailingGarbageBody).status = 200
    ∧ (http.makeAnalysisHandler (stat_analyzer.BuildAnalysis sampleDeps)
        (json.Decode sampleReadValue sampleDecode) quotePlain true
        trailingGarbageBody).invoked = [{ UserID := 7 }]
    ∧ (http.makeAnalysisHandler (stat_analyzer.BuildAnalysis sampleDeps)
        (json.Decode sampleReadValue sampleDecode) quotePlain true
        trailingGarbageBody).calls
      = [.FindOne 7, .Stream (stat_analyzer.genReq sampleDeps)] := by
  refine ⟨?_, ?_, ?_, ?_, ?_⟩ <;> rfl

/-- C9, amended. `Validate` returns an error exactly when the identifier is the nil UUID.
The decoder reads the first JSON value of the body and nothing after it. For every body
that has no first JSON value (the scanner fails), or whose first JSON value does not
decode into the request, or decodes to a request with the nil identifier (an object
without identifier, such as the empty object or one with a `subjectID` only), the handler
answers with status 400, does not invoke `BuildAnalysis`, so that no collaborator is
called, and writes the one line of the error and no event. Two bodies with the same
first JSON value get the same answer, whatever follows the value; and when that value
decodes to a request with an identifier that is not nil, as for a valid request
followed by more text, the handler does not answer 400 and invokes `BuildAnalysis`. -/
theorem request_validation :
    (∀ r : http.AnalysisRequest, (∃ e, r.Validate = some e) ↔ r.UserID = uuid.Nil)
    ∧ (∀ (Call : Type)
        (agent : stat_analyzer.BuildAnalysisRequest →
          Except Str (List stat_analyzer.BuildAnalysisStreamResponse) × List Call)
        (readValue : Str → Except Str (Str × Str))
        (unmarshal : Str → Except Str http.AnalysisRequest) (quote : Str → Str)
        (flusher : Bool) (body : Str),
        ((∃ e, readValue body = .error e)
          ∨ ∃ value rest, readValue body = .ok (value, rest)
              ∧ ((∃ e, unmarshal value = .error e)
                ∨ ∃ r, unmarshal value = .ok r ∧ r.UserID = uuid.Nil)) →
        (http.makeAnalysisHandler agent (json.Decode readValue unmarshal) quote flusher
            body).status = 400
        ∧ (http.makeAnalysisHandler agent (json.Decode readValue unmarshal) quote flusher
            body).invoked = []
        ∧ (http.makeAnalysisHandler agent (json.Decode readValue unmarshal) quote flusher
            body).calls = []
        ∧ ((http.makeAnalysisHandler agent (json.Decode readValue unmarshal) quote flusher
              body).written = ["invalid request body\n".toList]
            ∨ (http.makeAnalysisHandler agent (json.Decode readValue unmarshal) quote flusher
              body).written = ["userId is required\n".toList]))
    ∧ (∀ (Call : Type)
        (agent : stat_analyzer.BuildAnalysisRequest →
          Except Str (List stat_analyzer.BuildAnalysisStreamResponse) × List Call)
        (readValue : Str → Except Str (Str × Str))
        (unmarshal : Str → Except Str http.AnalysisRequest) (quote : Str → Str)
        (flusher : Bool) (body body2 value rest rest2 : Str),
        readValue body = .ok (value, rest) → readValue body2 = .ok (value, rest2) →
        http.makeAnalysisHandler agent (json.Decode readValue unmarshal) quote flusher body2
          = http.makeAnalysisHandler agent (json.Decode readValue unmarshal) quote flusher
              body)
    ∧ (∀ (Call : Type)
        (agent : stat_analyzer.BuildAnalysisRequest →
          Except Str (List stat_analyzer.BuildAnalysisStreamResponse) × List Call)
        (readValue : Str → Except Str (Str × Str))
        (unmarshal : Str → Except Str http.AnalysisRequest) (quote : Str → Str)
        (body value rest : Str) (r : http.AnalysisRequest),
        readValue body = .ok (value, rest) → unmarshal value = .ok r →
        r.UserID ≠ uuid.Nil →
        (http.makeAnalysisHandler agent (json.Decode readValue unmarshal) quote true
            body).status ≠ 400
        ∧ (http.makeAnalysisHandler agent (json.Decode readValue unmarshal) quote true
            body).invoked = [{ UserID := r.UserID }]) := by
  refine ⟨(handler_rejects_request).1, ?_, ?_, ?_⟩
  · intro Call agent readValue unmarshal quote flusher body h
    apply (handler_rejects_request).2
    rcases h with ⟨e, he⟩ | ⟨value, rest, hv, ⟨e, he⟩ | ⟨r, hr, hnil⟩⟩
    · exact Or.inl ⟨e, by simp [json.Decode, he]⟩
    · exact Or.inl ⟨e, by simp [json.Decode, hv, he]⟩
    · exact Or.inr ⟨r, by simp [json.Decode, hv, hr], hnil⟩
  · intro Call agent readValue unmarshal quote flusher body body2 value rest rest2 h1 h2
    have e : json.Decode readValue unmarshal body2 = json.Decode readValue unmarshal body := by
      simp [json.Decode, h1, h2]
    unfold http.makeAnalysisHandler
    rw [e]
  · intro Call agent readValue unmarshal quote body value rest r hv hr hid
    have hd : json.Decode readValue unmarshal body = .ok r := by
      simp [json.Decode, hv, hr]
    cases hag : agent { UserID := r.UserID } with
    | mk res calls =>
      cases res with
      | error err =>
        rw [handler_setup_error agent _ quote body r err calls hd hid hag]
        exact ⟨by simp, rfl⟩
      | ok stream =>
        rw [handler_streams agent _ quote body r stream calls hd hid hag]
        exact ⟨by simp, rfl⟩

set_option maxRecDepth 8000 in
/-- Witness of the amended C9: an unfinished object, the empty object and an object with
a `subjectID` only are answered with 400 and no collaborator is called; the valid request
followed by more text gets the answer of the valid request. -/
theorem request_validation_witness :
    ((http.makeAnalysisHandler (stat_analyzer.BuildAnalysis sampleDeps)
        (json.Decode sampleReadValue sampleDecode) quotePlain true
        "\x7b\"subjectID\"".toList).status = 400
      ∧ (http.makeAnalysisHandler (stat_analyzer.BuildAnalysis sampleDeps)
        (json.Decode sampleReadValue sampleDecode) quotePlain true
        "\x7b\"subjectID\"".toList).calls = [])
    ∧ ((http.makeAnalysisHandler (stat_analyzer.BuildAnalysis sampleDeps)
        (json.Decode sampleReadValue sampleDecode) quotePlain true
        " \x7b\x7d\n".toList).status = 400
      ∧ (http.makeAnalysisHandler (stat_analyzer.BuildAnalysis sampleDeps)
        (json.Decode sampleReadValue sampleDecode) quotePlain true
        " \x7b\x7d\n".toList).calls = [])
    ∧ ((http.makeAnalysisHandler (stat_analyzer.BuildAnalysis sampleDeps)
        (json.Decode sampleReadValue sampleDecode) quotePlain true
        "\x7b \"subjectID\": \"not-a-valid-id\" \x7d".toList).status = 400
      ∧ (http.makeAnalysisHandler (stat_analyzer.BuildAnalysis sampleDeps)
        (json.Decode sampleReadValue sampleDecode) quotePlain true
        "\x7b \"subjectID\": \"not-a-valid-id\" \x7d".toList).calls = [])
    ∧ http.makeAnalysisHandler (stat_analyzer.BuildAnalysis sampleDeps)
        (json.Decode sampleReadValue sampleDecode) quotePlain true trailingGarbageBody
      = http.makeAnalysisHandler (stat_analyzer.BuildAnalysis sampleDeps)
          (json.Decode sampleReadValue sampleDecode) quotePlain true validBody :=
  have h1 := request_validation.2.1 stat_analyzer.Call
    (stat_analyzer.BuildAnalysis sampleDeps) sampleReadValue sampleDecode quotePlain true
    "\x7b\"subjectID\"".toList (Or.inl ⟨"unexpected EOF".toList, rfl⟩)
  have h2 := request_validation.2.1 stat_analyzer.Call
    (stat_analyzer.BuildAnalysis sampleDeps) sampleReadValue sampleDecode quotePlain true
    " \x7b\x7d\n".toList
    (Or.inr ⟨"\x7b\x7d".toList, "\n".toList, rfl, Or.inr ⟨{ UserID := uuid.Nil }, rfl, rfl⟩⟩)
  have h3 := request_validation.2.1 stat_analyzer.Call
    (stat_analyzer.BuildAnalysis sampleDeps) sampleReadValue sampleDecode quotePlain true
    "\x7b \"subjectID\": \"not-a-valid-id\" \x7d".toList
    (Or.inr ⟨"\x7b \"subjectID\": \"not-a-valid-id\" \x7d".toList, [], rfl,
      Or.inr ⟨{ UserID := uuid.Nil }, rfl, rfl⟩⟩)
  have h4 := request_validation.2.2.1 stat_analyzer.Call
    (stat_analyzer.BuildAnalysis sampleDeps) sampleReadValue sampleDecode quotePlain true
    validBody trailingGarbageBody validBody [] " trailing garbage".toList rfl rfl
  ⟨⟨h1.1, h1.2.2.1⟩, ⟨h2.1, h2.2.2.1⟩, ⟨h3.1, h3.2.2.1⟩, h4⟩
